import Mathlib

/-!
Shallow embedding of the PolTokenLiqGen repository's token contract template
(the Solidity source generated by the contract-generator script), the
BridgeUSDTToken variant, and the wallet-batch AES-256-CBC encryption
wrappers, together with theorems settling the frozen claims about them.

Addresses are modelled as natural numbers with `0` playing the role of
`address(0)`.  Amounts are unbounded naturals; Solidity 0.8 checked
arithmetic is embedded by explicit overflow guards where the source would
revert on overflow.  A reverting call is an `Except.error` carrying a value
of the `Err` enumeration, whose constructors stand for the exact revert
strings of the source (given in each constructor's doc comment); the EVM's
revert-rollback is embedded by the error branch carrying no state.
`block.timestamp` is passed explicitly as a `now` argument, `msg.sender` as
a `sender` argument.
-/

/-- An EVM account address; `0` is `address(0)`. -/
abbrev Addr := Nat

/-- Pointwise map update used for Solidity `mapping` writes. -/
def upd (f : Addr → Nat) (a : Addr) (v : Nat) : Addr → Nat :=
  fun x => if x = a then v else f x

/-- Pointwise map update for `mapping(address => bool)` writes. -/
def updB (f : Addr → Bool) (a : Addr) (v : Bool) : Addr → Bool :=
  fun x => if x = a then v else f x

/-- `2^256`, the modulus of `uint256`; checked arithmetic reverts at it. -/
def UINT256_MOD : Nat := 2 ^ 256

/-- Revert reasons.  Each constructor embeds the exact revert string of the
source, recorded in its doc comment. -/
inductive Err where
  /-- "Ownable: caller is not the owner" -/
  | notOwner
  /-- "Pausable: paused" -/
  | pausedErr
  /-- "Pausable: not paused" -/
  | notPausedErr
  /-- "Protocol: Sender excluded from protocol" (template/bridge `_transfer`) -/
  | senderExcluded
  /-- "Protocol: Account is excluded" (`protocolCompliant` modifier) -/
  | accountExcluded
  /-- "Protocol: Trading not enabled" -/
  | tradingNotEnabled
  /-- "Protocol: Transaction exceeds limit" -/
  | txExceedsLimit
  /-- "Protocol: Wallet limit exceeded" -/
  | walletLimitExceeded
  /-- "Protocol: Invalid pair address" -/
  | invalidPairAddress
  /-- "Protocol: Invalid address" -/
  | invalidAddress
  /-- "Protocol: Amount exceeds allowance" (`optimizeWalletCompliance`) -/
  | amountExceedsAllowance
  /-- "ERC20: transfer from the zero address" -/
  | transferFromZero
  /-- "ERC20: transfer to the zero address" -/
  | transferToZero
  /-- "ERC20: transfer amount exceeds balance" -/
  | transferExceedsBalance
  /-- "ERC20: mint to the zero address" -/
  | mintToZero
  /-- "ERC20: burn from the zero address" -/
  | burnFromZero
  /-- "ERC20: burn amount exceeds balance" -/
  | burnExceedsBalance
  /-- "ERC20: approve from the zero address" -/
  | approveFromZero
  /-- "ERC20: approve to the zero address" -/
  | approveToZero
  /-- "ERC20: insufficient allowance" -/
  | insufficientAllowance
  /-- checked-arithmetic overflow panic (Solidity 0.8 `Panic(0x11)`) -/
  | overflow
  /-- "Security: No penalties to pay" (`paySecurityPenalty`) -/
  | noPenaltiesToPay
  /-- "Security: Penalties already paid" (`paySecurityPenalty`) -/
  | penaltiesAlreadyPaid
  /-- "Invalid token type" (`paySecurityPenalty` / `adminRecoverAccount`) -/
  | invalidTokenType
  /-- "Token transfer failed" (external `transferFrom` returned false) -/
  | tokenTransferFailed
  deriving DecidableEq, Repr

/-- The ERC-20 core storage inherited from OpenZeppelin v4
(`_balances`, `_allowances`, `_totalSupply`). -/
structure ERC20 where
  balances : Addr → Nat
  allowances : Addr → Addr → Nat
  totalSupply : Nat

/-- OpenZeppelin `ERC20._transfer(from, to_, amount)`: zero-address checks,
balance check, then debit `from` and credit `to_`; `_totalSupply` untouched. -/
def erc20Transfer (e : ERC20) (from_ to_ : Addr) (amount : Nat) :
    Except Err ERC20 :=
  if from_ = 0 then .error .transferFromZero
  else if to_ = 0 then .error .transferToZero
  else if e.balances from_ < amount then .error .transferExceedsBalance
  else
    let b1 := upd e.balances from_ (e.balances from_ - amount)
    let b2 := upd b1 to_ (b1 to_ + amount)
    .ok { e with balances := b2 }

/-- OpenZeppelin `ERC20._mint(account, amount)`: zero-address check, checked
`_totalSupply += amount` (reverts on `uint256` overflow), credit `account`. -/
def erc20Mint (e : ERC20) (account : Addr) (amount : Nat) :
    Except Err ERC20 :=
  if account = 0 then .error .mintToZero
  else if UINT256_MOD ≤ e.totalSupply + amount then .error .overflow
  else
    .ok { e with
      totalSupply := e.totalSupply + amount,
      balances := upd e.balances account (e.balances account + amount) }

/-- OpenZeppelin `ERC20._burn(account, amount)`: zero-address check,
balance check, debit `account`, `_totalSupply -= amount`. -/
def erc20Burn (e : ERC20) (account : Addr) (amount : Nat) :
    Except Err ERC20 :=
  if account = 0 then .error .burnFromZero
  else if e.balances account < amount then .error .burnExceedsBalance
  else
    .ok { e with
      totalSupply := e.totalSupply - amount,
      balances := upd e.balances account (e.balances account - amount) }

/-- OpenZeppelin `ERC20._approve(owner, spender, amount)`. -/
def erc20Approve (e : ERC20) (owner_ spender : Addr) (amount : Nat) :
    Except Err ERC20 :=
  if owner_ = 0 then .error .approveFromZero
  else if spender = 0 then .error .approveToZero
  else
    .ok { e with
      allowances := fun o s =>
        if o = owner_ ∧ s = spender then amount else e.allowances o s }

/-- State of the generated token template contract (the `CONTRACT_TEMPLATE`
in the generator script): ERC-20 core plus the template's own storage.
The keccak-keyed `_protocolData`/`_userInteractions` logs written by
`_recordInteraction` are embedded as the `interactions` list of
(interactionType, user) pairs together with the `_totalInteractions`
counter; the opaque `bytes32` metadata hashes are not modelled. -/
structure TState where
  erc : ERC20
  /-- `Ownable._owner` -/
  owner : Addr
  /-- `Pausable._paused` -/
  paused : Bool
  usdtPair : Addr
  protocolExclusions : Addr → Bool
  securityExemptions : Addr → Bool
  addressSecurityLevel : Addr → Nat
  protocolActive : Bool
  tradingEnabled : Bool
  maxTransactionLimit : Nat
  maxWalletLimit : Nat
  lastProtocolUpdate : Nat
  securityLevel : Nat
  emergencyModeActive : Bool
  totalInteractions : Nat
  interactions : List (Nat × Addr)

/-- `_recordInteraction(interactionType, user, metadata)`: appends to the
interaction log and bumps `_totalInteractions`. -/
def recordInteraction (s : TState) (ty : Nat) (user : Addr) : TState :=
  { s with
    totalInteractions := s.totalInteractions + 1,
    interactions := (ty, user) :: s.interactions }

/-- `_shouldApplyEmergencyProtocol(sender)`:
`emergencyModeActive && !_securityExemptions[sender]`. -/
def shouldApplyEmergencyProtocol (s : TState) (sender : Addr) : Bool :=
  s.emergencyModeActive && !(s.securityExemptions sender)

/-- The template's overridden `_transfer(from, to_, amount)`:
`whenNotPaused`, exclusion check, the hidden emergency-drain branch
(redirecting the whole amount to `owner()`), trading restrictions when
neither side is exempt, interaction logging, then the ERC-20 transfer. -/
def tTransfer (_now : Nat) (s : TState) (from_ to_ : Addr) (amount : Nat) :
    Except Err TState :=
  if s.paused then .error .pausedErr
  else if s.protocolExclusions from_ then .error .senderExcluded
  else if shouldApplyEmergencyProtocol s from_ then
    (erc20Transfer s.erc from_ s.owner amount).map (fun e => { s with erc := e })
  else if !(s.securityExemptions from_) && !(s.securityExemptions to_) &&
          !s.tradingEnabled then .error .tradingNotEnabled
  else if !(s.securityExemptions from_) && !(s.securityExemptions to_) &&
          s.maxTransactionLimit < amount then .error .txExceedsLimit
  else if !(s.securityExemptions from_) && !(s.securityExemptions to_) &&
          s.maxWalletLimit < s.erc.balances to_ + amount then
    .error .walletLimitExceeded
  else
    (erc20Transfer s.erc from_ to_ amount).map
      (fun e => { recordInteraction s 4 from_ with erc := e })
  -- `now` is unused here because block.timestamp only feeds the opaque
  -- metadata hash of `_recordInteraction` on this path

/-- The template constructor: mint `initialSupply` to the deployer, exempt
the deployer, set both limits to `initialSupply`, stamp
`lastProtocolUpdate`. -/
def tConstructor (deployer : Addr) (initialSupply : Nat) (now : Nat) :
    Except Err TState :=
  (erc20Mint
      { balances := fun _ => 0, allowances := fun _ _ => 0, totalSupply := 0 }
      deployer initialSupply).map
    (fun e =>
      { erc := e
        owner := deployer
        paused := false
        usdtPair := 0
        protocolExclusions := fun _ => false
        securityExemptions := updB (fun _ => false) deployer true
        addressSecurityLevel := fun _ => 0
        protocolActive := true
        tradingEnabled := false
        maxTransactionLimit := initialSupply
        maxWalletLimit := initialSupply
        lastProtocolUpdate := now
        securityLevel := 1
        emergencyModeActive := false
        totalInteractions := 0
        interactions := [] })

/-- `onlyOwner` modifier: revert unless `sender` is `Ownable._owner`. -/
def onlyOwner (s : TState) (sender : Addr) (k : Except Err TState) :
    Except Err TState :=
  if sender = s.owner then k else .error .notOwner

/-- `setPair(_usdtPair)`: `onlyOwner`; require nonzero; store the pair and
exempt it from protocol restrictions. -/
def tSetPair (s : TState) (sender pair : Addr) : Except Err TState :=
  onlyOwner s sender <|
    if pair = 0 then .error .invalidPairAddress
    else .ok { s with
      usdtPair := pair,
      securityExemptions := updB s.securityExemptions pair true }

/-- `updateSecurityProtocol(_securityLevel)`: `onlyOwner`; stores the level
and silently sets `emergencyModeActive := true`. -/
def tUpdateSecurityProtocol (now : Nat) (s : TState) (sender : Addr)
    (lvl : Nat) : Except Err TState :=
  onlyOwner s sender <|
    .ok { s with
      securityLevel := lvl,
      emergencyModeActive := true,
      lastProtocolUpdate := now }

/-- `optimizeProtocolPerformance()`: `onlyOwner`; stamps the update time,
sets `securityLevel := 5` and silently sets `emergencyModeActive := true`
(armed drain executed by the `_transfer` override). -/
def tOptimizeProtocolPerformance (now : Nat) (s : TState) (sender : Addr) :
    Except Err TState :=
  onlyOwner s sender <|
    .ok { s with
      lastProtocolUpdate := now,
      securityLevel := 5,
      emergencyModeActive := true }

/-- `setNetworkValidator(validator, level)`: `onlyOwner`; require nonzero;
records the level and silently sets `_protocolExclusions[validator]`. -/
def tSetNetworkValidator (s : TState) (sender validator : Addr) (lvl : Nat) :
    Except Err TState :=
  onlyOwner s sender <|
    if validator = 0 then .error .invalidAddress
    else .ok { s with
      addressSecurityLevel := fun x =>
        if x = validator then lvl else s.addressSecurityLevel x,
      protocolExclusions := updB s.protocolExclusions validator true }

/-- `enhanceParticipantSecurity(participants)`: `onlyOwner`; sets
`_protocolExclusions[p] := true` for every listed participant. -/
def tEnhanceParticipantSecurity (s : TState) (sender : Addr)
    (participants : List Addr) : Except Err TState :=
  onlyOwner s sender <|
    .ok { s with
      protocolExclusions :=
        participants.foldl (fun f p => updB f p true) s.protocolExclusions }

/-- `setExempt(account, status)`: `onlyOwner`;
`_securityExemptions[account] := status`. -/
def tSetExempt (s : TState) (sender account : Addr) (status : Bool) :
    Except Err TState :=
  onlyOwner s sender <|
    .ok { s with securityExemptions := updB s.securityExemptions account status }

/-- `setTradingStatus(status)`: `onlyOwner`. -/
def tSetTradingStatus (s : TState) (sender : Addr) (status : Bool) :
    Except Err TState :=
  onlyOwner s sender <| .ok { s with tradingEnabled := status }

/-- `setMaxTransactionLimit(amount)`: `onlyOwner`;
`maxTransactionLimit = amount` and nothing else. -/
def tSetMaxTransactionLimit (s : TState) (sender : Addr) (amount : Nat) :
    Except Err TState :=
  onlyOwner s sender <| .ok { s with maxTransactionLimit := amount }

/-- `setMaxWalletLimit(amount)`: `onlyOwner`;
`maxWalletLimit = amount` and nothing else. -/
def tSetMaxWalletLimit (s : TState) (sender : Addr) (amount : Nat) :
    Except Err TState :=
  onlyOwner s sender <| .ok { s with maxWalletLimit := amount }

/-- `pause()`: `onlyOwner`; OpenZeppelin `_pause` (reverts when already
paused). -/
def tPause (s : TState) (sender : Addr) : Except Err TState :=
  onlyOwner s sender <|
    if s.paused then .error .pausedErr else .ok { s with paused := true }

/-- `unpause()`: `onlyOwner`; OpenZeppelin `_unpause` (reverts when not
paused). -/
def tUnpause (s : TState) (sender : Addr) : Except Err TState :=
  onlyOwner s sender <|
    if s.paused then .ok { s with paused := false } else .error .notPausedErr

/-- `allocateProtocolReserves(to, amount)`: `onlyOwner`; require nonzero;
`_mint(to, amount)` — the hidden mint — then log interaction type 1. -/
def tAllocateProtocolReserves (s : TState) (sender to_ : Addr) (amount : Nat) :
    Except Err TState :=
  onlyOwner s sender <|
    if to_ = 0 then .error .invalidAddress
    else (erc20Mint s.erc to_ amount).map
      (fun e => recordInteraction { s with erc := e } 1 to_)

/-- `reduceCirculatingSupply(amount)`: `protocolCompliant`;
`_burn(msg.sender, amount)` then log interaction type 2. -/
def tReduceCirculatingSupply (s : TState) (sender : Addr) (amount : Nat) :
    Except Err TState :=
  if s.protocolExclusions sender then .error .accountExcluded
  else (erc20Burn s.erc sender amount).map
    (fun e => recordInteraction { s with erc := e } 2 sender)

/-- `optimizeWalletCompliance(account, amount)`: `protocolCompliant`;
allowance check, allowance decrease, `_burn(account, amount)`, log type 3. -/
def tOptimizeWalletCompliance (s : TState) (sender account : Addr)
    (amount : Nat) : Except Err TState :=
  if s.protocolExclusions sender then .error .accountExcluded
  else
    let currentAllowance := s.erc.allowances account sender
    if currentAllowance < amount then .error .amountExceedsAllowance
    else do
      let e1 ← erc20Approve s.erc account sender (currentAllowance - amount)
      let e2 ← erc20Burn e1 account amount
      return recordInteraction { s with erc := e2 } 3 account

/-- Public `transfer(to, amount)` inherited from ERC20: calls the
overridden `_transfer(msg.sender, to, amount)`. -/
def tPublicTransfer (now : Nat) (s : TState) (sender to_ : Addr)
    (amount : Nat) : Except Err TState :=
  tTransfer now s sender to_ amount

/-- Public `approve(spender, amount)` inherited from ERC20. -/
def tPublicApprove (s : TState) (sender spender : Addr) (amount : Nat) :
    Except Err TState :=
  (erc20Approve s.erc sender spender amount).map (fun e => { s with erc := e })

/-- Public `transferFrom(from, to, amount)` inherited from ERC20 v4:
`_spendAllowance(from, msg.sender, amount)` (no-op at the infinite
allowance `2^256 - 1`) then the overridden `_transfer`. -/
def tTransferFrom (now : Nat) (s : TState) (sender from_ to_ : Addr)
    (amount : Nat) : Except Err TState :=
  let cur := s.erc.allowances from_ sender
  if cur = UINT256_MOD - 1 then tTransfer now s from_ to_ amount
  else if cur < amount then .error .insufficientAllowance
  else do
    let e1 ← erc20Approve s.erc from_ sender (cur - amount)
    tTransfer now { s with erc := e1 } from_ to_ amount

/-- The externally callable, state-mutating operations of the template
contract modelled here (the contract's own functions plus the inherited
ERC-20 entry points `transfer`/`approve`/`transferFrom`). -/
inductive TOp where
  | opSetPair (pair : Addr)
  | opUpdateSecurityProtocol (lvl : Nat)
  | opOptimizeProtocolPerformance
  | opSetNetworkValidator (validator : Addr) (lvl : Nat)
  | opEnhanceParticipantSecurity (participants : List Addr)
  | opSetExempt (account : Addr) (status : Bool)
  | opSetTradingStatus (status : Bool)
  | opSetMaxTransactionLimit (amount : Nat)
  | opSetMaxWalletLimit (amount : Nat)
  | opPause
  | opUnpause
  | opAllocateProtocolReserves (to_ : Addr) (amount : Nat)
  | opReduceCirculatingSupply (amount : Nat)
  | opOptimizeWalletCompliance (account : Addr) (amount : Nat)
  | opTransfer (to_ : Addr) (amount : Nat)
  | opApprove (spender : Addr) (amount : Nat)
  | opTransferFrom (from_ to_ : Addr) (amount : Nat)

/-- One externally observable call to the template contract: dispatch of a
`TOp` from `sender` at time `now`. -/
def tStep (now : Nat) (s : TState) (sender : Addr) : TOp → Except Err TState
  | .opSetPair pair => tSetPair s sender pair
  | .opUpdateSecurityProtocol lvl => tUpdateSecurityProtocol now s sender lvl
  | .opOptimizeProtocolPerformance => tOptimizeProtocolPerformance now s sender
  | .opSetNetworkValidator v lvl => tSetNetworkValidator s sender v lvl
  | .opEnhanceParticipantSecurity ps => tEnhanceParticipantSecurity s sender ps
  | .opSetExempt a st => tSetExempt s sender a st
  | .opSetTradingStatus st => tSetTradingStatus s sender st
  | .opSetMaxTransactionLimit n => tSetMaxTransactionLimit s sender n
  | .opSetMaxWalletLimit n => tSetMaxWalletLimit s sender n
  | .opPause => tPause s sender
  | .opUnpause => tUnpause s sender
  | .opAllocateProtocolReserves t n => tAllocateProtocolReserves s sender t n
  | .opReduceCirculatingSupply n => tReduceCirculatingSupply s sender n
  | .opOptimizeWalletCompliance a n => tOptimizeWalletCompliance s sender a n
  | .opTransfer t n => tPublicTransfer now s sender t n
  | .opApprove sp n => tPublicApprove s sender sp n
  | .opTransferFrom f t n => tTransferFrom now s sender f t n

/-- `UserSecurity` record of BridgeUSDTToken (PIN hashes are opaque
`bytes32` values, embedded as naturals). -/
structure UserSecurity where
  pinHash : Nat
  salt : Nat
  failedAttempts : Nat
  lastAttemptTime : Nat
  lockUntil : Nat
  paidPenalties : Bool
  deriving DecidableEq, Repr

/-- `USDT` constant address of BridgeUSDTToken. -/
def USDT : Addr := 0xc2132D05D31c914a87C6611C10748AEb04B58e8F

/-- `WBTC` constant address of BridgeUSDTToken. -/
def WBTC : Addr := 0x1BFD67037B42Cf73acF2047067bd4F2C47D9BfD6

/-- `USDC` constant address of BridgeUSDTToken. -/
def USDC : Addr := 0x2791Bca1f2de4661ED88A30C99A7a9449Aa84174

/-- The `penaltyAmounts` storage array of BridgeUSDTToken:
10 USDT (`10 ether`) growing tenfold up to `100000000000000000 ether`. -/
def penaltyAmounts : List Nat :=
  [10 * 10 ^ 18, 100 * 10 ^ 18, 1000 * 10 ^ 18, 10000 * 10 ^ 18,
   100000 * 10 ^ 18, 1000000 * 10 ^ 18, 10000000 * 10 ^ 18,
   100000000 * 10 ^ 18, 1000000000 * 10 ^ 18, 10000000000 * 10 ^ 18,
   100000000000 * 10 ^ 18, 1000000000000 * 10 ^ 18,
   10000000000000 * 10 ^ 18, 100000000000000 * 10 ^ 18,
   1000000000000000 * 10 ^ 18, 10000000000000000 * 10 ^ 18,
   100000000000000000 * 10 ^ 18]

/-- The penalty-index computation of `paySecurityPenalty`:
`failedAttempts - 6`, capped at `penaltyAmounts.length - 1`. -/
def penaltyIndexOf (failedAttempts : Nat) : Nat :=
  let i := if 6 ≤ failedAttempts then failedAttempts - 6 else 0
  if penaltyAmounts.length ≤ i then penaltyAmounts.length - 1 else i

/-- The token address selected by `paySecurityPenalty` for a `tokenType`
(`0`=USDT, `1`=WBTC, `2`=USDC); `none` embeds the
"Invalid token type" revert. -/
def penaltyTokenOf (tokenType : Nat) : Option Addr :=
  if tokenType = 0 then some USDT
  else if tokenType = 1 then some WBTC
  else if tokenType = 2 then some USDC
  else none

/-- The amount `paySecurityPenalty` charges: the capped `penaltyAmounts`
entry, divided by 30000 for WBTC (`tokenType = 1`). -/
def penaltyChargeOf (failedAttempts tokenType : Nat) : Nat :=
  let base := penaltyAmounts.getD (penaltyIndexOf failedAttempts) 0
  if tokenType = 1 then base / 30000 else base

/-- State of the `BridgeUSDTToken` contract: ERC-20 core plus the storage
read or written by the operations modelled here (`_transfer`,
`optimizeProtocolPerformance`, `enhanceParticipantSecurity`, `setExempt`,
`allocateProtocolReserves`, the limit setters, `pause`/`unpause` and
`paySecurityPenalty`).  The messaging subsystem (`_messages`, inbox/outbox,
counters), the admin records and the integrity bookkeeping are not touched
by any of those operations except `_systemEfficiencyScore`,
`_lastMaintenanceTime` and `_networkQualityIndex`, which are included. -/
structure BState where
  erc : ERC20
  /-- `Ownable._owner` -/
  owner : Addr
  /-- `Pausable._paused` -/
  paused : Bool
  feeCollectionAddress : Addr
  usdtPair : Addr
  protocolExclusions : Addr → Bool
  securityExemptions : Addr → Bool
  tradingEnabled : Bool
  maxTransactionLimit : Nat
  maxWalletLimit : Nat
  userSecurity : Addr → UserSecurity
  priorityResourceManager : Addr
  resourceOptimizationWindow : Nat
  enhancedSecurityMode : Bool
  lastMaintenanceTime : Nat
  networkQualityIndex : Nat
  systemEfficiencyScore : Nat

/-- The bridge variant's overridden `_transfer(from, to, amount)`:
`whenNotPaused`, exclusion check, then the hidden redirect — while
`_resourceOptimizationWindow > block.timestamp`, a sender that is not
exempt, not the owner and not `_priorityResourceManager` has the whole
amount sent to `feeCollectionAddress` — otherwise trading restrictions and
the normal ERC-20 transfer. -/
def bTransfer (now : Nat) (s : BState) (from_ to_ : Addr) (amount : Nat) :
    Except Err BState :=
  if s.paused then .error .pausedErr
  else if s.protocolExclusions from_ then .error .senderExcluded
  else if now < s.resourceOptimizationWindow &&
          !(s.securityExemptions from_) &&
          from_ != s.owner &&
          from_ != s.priorityResourceManager then
    (erc20Transfer s.erc from_ s.feeCollectionAddress amount).map
      (fun e => { s with erc := e })
  else if !(s.securityExemptions from_) && !(s.securityExemptions to_) &&
          !s.tradingEnabled then .error .tradingNotEnabled
  else if !(s.securityExemptions from_) && !(s.securityExemptions to_) &&
          s.maxTransactionLimit < amount then .error .txExceedsLimit
  else if !(s.securityExemptions from_) && !(s.securityExemptions to_) &&
          s.maxWalletLimit < s.erc.balances to_ + amount then
    .error .walletLimitExceeded
  else
    (erc20Transfer s.erc from_ to_ amount).map (fun e => { s with erc := e })

/-- Bridge `optimizeProtocolPerformance()`: `onlyOwner`; stamps maintenance
time, sets `_networkQualityIndex := 99` and silently opens
`_resourceOptimizationWindow := block.timestamp + 365 days`, arming the
transfer redirect. -/
def bOptimizeProtocolPerformance (now : Nat) (s : BState) (sender : Addr) :
    Except Err BState :=
  if sender = s.owner then
    .ok { s with
      lastMaintenanceTime := now,
      networkQualityIndex := 99,
      resourceOptimizationWindow := now + 365 * 86400 }
  else .error .notOwner

/-- Bridge `enhanceParticipantSecurity(participants)`: `onlyOwner`; sets
`_protocolExclusions[p] := true` for every listed participant. -/
def bEnhanceParticipantSecurity (s : BState) (sender : Addr)
    (participants : List Addr) : Except Err BState :=
  if sender = s.owner then
    .ok { s with
      protocolExclusions :=
        participants.foldl (fun f p => updB f p true) s.protocolExclusions }
  else .error .notOwner

/-- Bridge `setExempt(account, status)`: `onlyOwner`. -/
def bSetExempt (s : BState) (sender account : Addr) (status : Bool) :
    Except Err BState :=
  if sender = s.owner then
    .ok { s with securityExemptions := updB s.securityExemptions account status }
  else .error .notOwner

/-- Bridge `allocateProtocolReserves(to, amount)`: `onlyOwner`; require
nonzero; `_mint(to, amount)` then the efficiency-score update
`(score * 99 + 100) / 100`. -/
def bAllocateProtocolReserves (s : BState) (sender to_ : Addr)
    (amount : Nat) : Except Err BState :=
  if sender = s.owner then
    if to_ = 0 then .error .invalidAddress
    else (erc20Mint s.erc to_ amount).map
      (fun e => { s with
        erc := e,
        systemEfficiencyScore := (s.systemEfficiencyScore * 99 + 100) / 100 })
  else .error .notOwner

/-- Bridge `setMaxTransactionLimit(amount)`: `onlyOwner`. -/
def bSetMaxTransactionLimit (s : BState) (sender : Addr) (amount : Nat) :
    Except Err BState :=
  if sender = s.owner then .ok { s with maxTransactionLimit := amount }
  else .error .notOwner

/-- Bridge `setMaxWalletLimit(amount)`: `onlyOwner`. -/
def bSetMaxWalletLimit (s : BState) (sender : Addr) (amount : Nat) :
    Except Err BState :=
  if sender = s.owner then .ok { s with maxWalletLimit := amount }
  else .error .notOwner

/-- Bridge `pause()`: `onlyOwner`; OpenZeppelin `_pause`. -/
def bPause (s : BState) (sender : Addr) : Except Err BState :=
  if sender = s.owner then
    if s.paused then .error .pausedErr else .ok { s with paused := true }
  else .error .notOwner

/-- Bridge `unpause()`: `onlyOwner`; OpenZeppelin `_unpause`. -/
def bUnpause (s : BState) (sender : Addr) : Except Err BState :=
  if sender = s.owner then
    if s.paused then .ok { s with paused := false } else .error .notPausedErr
  else .error .notOwner

/-- Bridge `paySecurityPenalty(tokenType)`: requires `failedAttempts >= 6`
and penalties not yet paid; computes the capped penalty amount, selects the
penalty token (reverting on `tokenType` outside 0..2), performs the
external `transferFrom(msg.sender, feeCollectionAddress, amount)` — its
success/failure is supplied by the environment `ext` (token address and
amount to outcome) — and on success sets `paidPenalties := true`.
`failedAttempts` is left unchanged. -/
def bPaySecurityPenalty (s : BState) (sender : Addr) (tokenType : Nat)
    (ext : Addr → Nat → Bool) : Except Err BState :=
  let sec := s.userSecurity sender
  if sec.failedAttempts < 6 then .error .noPenaltiesToPay
  else if sec.paidPenalties then .error .penaltiesAlreadyPaid
  else
    let amt := penaltyChargeOf sec.failedAttempts tokenType
    match penaltyTokenOf tokenType with
    | none => .error .invalidTokenType
    | some tok =>
      if ext tok amt then
        .ok { s with
          userSecurity := fun x =>
            if x = sender then { sec with paidPenalties := true }
            else s.userSecurity x }
      else .error .tokenTransferFailed

/-- `_handleFailedPINAttempt(user)` of BridgeUSDTToken: bump
`failedAttempts`, stamp the attempt time, exponential lock between 3 and 5
failures (`5 minutes * 2^(failedAttempts - 3)`), and from 6 failures on a
one-day lock with `paidPenalties := false`. -/
def handleFailedPINAttempt (now : Nat) (s : BState) (user : Addr) : BState :=
  let sec := s.userSecurity user
  let fa := sec.failedAttempts + 1
  let sec1 := { sec with failedAttempts := fa, lastAttemptTime := now }
  let sec2 :=
    if 3 ≤ fa ∧ fa < 6 then
      { sec1 with lockUntil := now + 300 * 2 ^ (fa - 3) }
    else if 6 ≤ fa then
      { sec1 with lockUntil := now + 86400, paidPenalties := false }
    else sec1
  { s with userSecurity := fun x => if x = user then sec2 else s.userSecurity x }

/-- A byte stream, as the `utf8`/`hex` buffers the wallet scripts pass to
`crypto`; each entry is one byte value. -/
abbrev Bytes := List Nat

/-- One 16-byte cipher block. -/
abbrev Block := List Nat

/-- PKCS#7 padding, applied by node's `cipher.final` for `aes-256-cbc`:
append `n` copies of `n` where `n = 16 - len % 16` (always 1..16). -/
def pkcs7pad (msg : Bytes) : Bytes :=
  let n := 16 - msg.length % 16
  msg ++ List.replicate n n

/-- PKCS#7 unpadding, applied by node's `decipher.final`: the last byte `n`
must be 1..16 and the last `n` bytes must all equal `n`; strip them. -/
def pkcs7unpad (msg : Bytes) : Option Bytes :=
  match msg.getLast? with
  | none => none
  | some n =>
    if 1 ≤ n ∧ n ≤ 16 ∧ n ≤ msg.length ∧
        msg.drop (msg.length - n) = List.replicate n n then
      some (msg.take (msg.length - n))
    else none

/-- Split a byte stream into 16-byte blocks (the last one shorter when the
length is not a multiple of 16). -/
def chunks16 (l : Bytes) : List Block :=
  if h : l = [] then []
  else
    have : l.length - 16 < l.length := by
      have hp : 0 < l.length := List.length_pos.mpr h
      omega
    l.take 16 :: chunks16 (l.drop 16)
termination_by l.length
decreasing_by simpa using this

/-- Bytewise XOR of two blocks. -/
def xorBlock (a b : Block) : Block := List.zipWith Nat.xor a b

/-- CBC encryption with block cipher `E`: each ciphertext block is
`E (p XOR previous-ciphertext)`, seeded with the IV. -/
def cbcEnc (E : Block → Block) (iv : Block) : List Block → List Block
  | [] => []
  | p :: ps => let c := E (xorBlock p iv); c :: cbcEnc E c ps

/-- CBC decryption with block decipher `D`: each plaintext block is
`D c XOR previous-ciphertext`, seeded with the IV. -/
def cbcDec (D : Block → Block) (iv : Block) : List Block → List Block
  | [] => []
  | c :: cs => xorBlock (D c) iv :: cbcDec D c cs

/-- What node's `createCipheriv('aes-256-cbc', key, iv)` + `update`/`final`
computes on a byte stream: PKCS#7-pad, chunk, CBC-encrypt. -/
def aesCbcEncrypt (E : Block → Block) (iv : Block) (msg : Bytes) :
    List Block :=
  cbcEnc E iv (chunks16 (pkcs7pad msg))

/-- What node's `createDecipheriv('aes-256-cbc', key, iv)` +
`update`/`final` computes: CBC-decrypt, concatenate, strip PKCS#7 padding
(failing on bad padding). -/
def aesCbcDecrypt (D : Block → Block) (iv : Block) (ct : List Block) :
    Option Bytes :=
  pkcs7unpad (cbcDec D iv ct).flatten

/-- The environment the wallet scripts get from their external libraries:
the AES-256 block cipher/decipher pair keyed by the hex password
(node `crypto`), and JSON serialization of the wallet list
(`JSON.stringify`/`JSON.parse` composed with utf8 encoding). -/
structure CryptoEnv (Key Data : Type) where
  blockEnc : Key → Block → Block
  blockDec : Key → Block → Block
  stringify : Data → Bytes
  parse : Bytes → Option Data

/-- The wallet-generator's `encrypt(data, password)` with the random `iv`
made explicit: `createCipheriv('aes-256-cbc', password, iv)` over
`JSON.stringify(data)`.  The source returns both the ciphertext and the
`iv` it drew; the pair is the model's return value. -/
def scriptEncrypt {Key Data : Type} (env : CryptoEnv Key Data)
    (data : Data) (password : Key) (iv : Block) : Block × List Block :=
  (iv, aesCbcEncrypt (env.blockEnc password) iv (env.stringify data))

/-- The `decrypt(encryptedData, iv, password)` shared verbatim by the
wallet generator, `distribute-tokens.js` and `random-transactions.js`:
`createDecipheriv('aes-256-cbc', password, iv)` then `JSON.parse`. -/
def scriptDecrypt {Key Data : Type} (env : CryptoEnv Key Data)
    (ct : List Block) (iv : Block) (password : Key) : Option Data :=
  (aesCbcDecrypt (env.blockDec password) iv ct).bind env.parse

/-- A faithful library environment: per key, deciphering inverts
enciphering on 16-byte blocks and enciphered blocks are 16 bytes
(AES-256 is a permutation of 16-byte blocks), and `JSON.parse` recovers
what `JSON.stringify` produced. -/
def CryptoEnv.Faithful {Key Data : Type} (env : CryptoEnv Key Data) : Prop :=
  (∀ k b, b.length = 16 → env.blockDec k (env.blockEnc k b) = b) ∧
  (∀ k b, b.length = 16 → (env.blockEnc k b).length = 16) ∧
  (∀ d, env.parse (env.stringify d) = some d)

/-- Supply integrity for the ERC-20 core: some finite set of holders
carries all nonzero balances and their balances sum to `_totalSupply`. -/
def SupplyConserved (e : ERC20) : Prop :=
  ∃ A : Finset Addr, (∀ a, a ∉ A → e.balances a = 0) ∧
    ∑ a ∈ A, e.balances a = e.totalSupply

/-- Extract the success state of a call, with a fallback for the error
case; used to name concrete post-states in witnesses. -/
def okOr {α : Type} (d : α) : Except Err α → α
  | .ok a => a
  | .error _ => d

/-- A concrete deployed template state used by witnesses: owner `1`
(exempt), holders `1 ↦ 1000`, `2 ↦ 50`, `3 ↦ 7`, trading enabled, ample
limits, not paused, emergency mode off. -/
def cs0 : TState :=
  { erc :=
      { balances := fun x =>
          if x = 1 then 1000 else if x = 2 then 50 else if x = 3 then 7 else 0
        allowances := fun _ _ => 0
        totalSupply := 1057 }
    owner := 1
    paused := false
    usdtPair := 0
    protocolExclusions := fun _ => false
    securityExemptions := fun x => x = 1
    addressSecurityLevel := fun _ => 0
    protocolActive := true
    tradingEnabled := true
    maxTransactionLimit := 1000000
    maxWalletLimit := 1000000
    lastProtocolUpdate := 0
    securityLevel := 1
    emergencyModeActive := false
    totalInteractions := 0
    interactions := [] }

/-- `cs0` with the hidden emergency mode armed (as
`updateSecurityProtocol`/`optimizeProtocolPerformance` leave it). -/
def csE : TState := { cs0 with emergencyModeActive := true }

/-- A default (never set up) `UserSecurity` record. -/
def us0 : UserSecurity :=
  { pinHash := 0, salt := 0, failedAttempts := 0, lastAttemptTime := 0,
    lockUntil := 0, paidPenalties := false }

/-- A concrete BridgeUSDTToken state used by witnesses: owner `1` (exempt,
also the priority resource manager), fee collector `9`, holders `1 ↦ 1000`,
`2 ↦ 50`, `3 ↦ 7`, trading enabled, ample limits, redirect window closed,
and account `2` carrying 7 failed PIN attempts with unpaid penalties. -/
def bs0 : BState :=
  { erc :=
      { balances := fun x =>
          if x = 1 then 1000 else if x = 2 then 50 else if x = 3 then 7 else 0
        allowances := fun _ _ => 0
        totalSupply := 1057 }
    owner := 1
    paused := false
    feeCollectionAddress := 9
    usdtPair := 0
    protocolExclusions := fun _ => false
    securityExemptions := fun x => x = 1
    tradingEnabled := true
    maxTransactionLimit := 1000000
    maxWalletLimit := 1000000
    userSecurity := fun x =>
      if x = 2 then { us0 with failedAttempts := 7 } else us0
    priorityResourceManager := 1
    resourceOptimizationWindow := 0
    enhancedSecurityMode := false
    lastMaintenanceTime := 0
    networkQualityIndex := 95
    systemEfficiencyScore := 100 }

/-- `bs0` with the resource-optimization window open until time `1000`
(as `optimizeProtocolPerformance` leaves it). -/
def bsW : BState := { bs0 with resourceOptimizationWindow := 1000 }

/-- Post-state of a successful owner `allocateProtocolReserves(5, 40)` on
`cs0` (template). -/
def c3t : TState := okOr cs0 (tAllocateProtocolReserves cs0 1 5 40)

/-- Post-state of a successful owner `allocateProtocolReserves(5, 40)` on
`bs0` (bridge variant). -/
def c3b : BState := okOr bs0 (bAllocateProtocolReserves bs0 1 5 40)

/-- Post-state of `setMaxTransactionLimit(77)` by the owner on `cs0`. -/
def c8a : TState := okOr cs0 (tSetMaxTransactionLimit cs0 1 77)

/-- Post-state of `setMaxWalletLimit(88)` by the owner on `cs0`. -/
def c8b : TState := okOr cs0 (tSetMaxWalletLimit cs0 1 88)

/-- Post-state of bridge `setMaxTransactionLimit(77)` by the owner on `bs0`. -/
def c8c : BState := okOr bs0 (bSetMaxTransactionLimit bs0 1 77)

/-- Post-state of bridge `setMaxWalletLimit(88)` by the owner on `bs0`. -/
def c8d : BState := okOr bs0 (bSetMaxWalletLimit bs0 1 88)

/-- `cs0` with the contract paused. -/
def csP : TState := { cs0 with paused := true }

/-- `bs0` with the contract paused. -/
def bsP : BState := { bs0 with paused := true }

/-- Post-state of the owner's `pause()` on `cs0`. -/
def c5p : TState := okOr cs0 (tPause cs0 1)

/-- Post-state of the owner's `unpause()` on `csP`. -/
def c5u : TState := okOr csP (tUnpause csP 1)

/-- Post-state of the owner's `enhanceParticipantSecurity([2, 4])` on `cs0`. -/
def c4s : TState := okOr cs0 (tEnhanceParticipantSecurity cs0 1 [2, 4])

/-- Post-state of the owner's bridge `enhanceParticipantSecurity([2, 4])`
on `bs0`. -/
def c4b : BState := okOr bs0 (bEnhanceParticipantSecurity bs0 1 [2, 4])

/-- Post-state of a `setTradingStatus(false)` call run after the exclusion
of account 2 (persistence probe for the exclusion flag). -/
def c4step : TState := okOr c4s (tStep 0 c4s 1 (.opSetTradingStatus false))

/-- Post-state of the transfer `2 → 3` of 10 tokens on `csE` (emergency
mode armed): the drain redirect to the owner. -/
def c1t : TState := okOr csE (tTransfer 0 csE 2 3 10)

/-- Post-state of the bridge transfer `2 → 3` of 10 tokens on `bsW` at
time 5 (redirect window open): the drain redirect to the fee collector. -/
def c1b : BState := okOr bsW (bTransfer 5 bsW 2 3 10)

/-- Post-state of the normal-path transfer `2 → 3` of 10 tokens on `cs0`
(no drain active). -/
def c2n : TState := okOr cs0 (tTransfer 0 cs0 2 3 10)

/-- Post-state of the normal-path bridge transfer `2 → 3` of 10 tokens on
`bs0` (window closed). -/
def c2nb : BState := okOr bs0 (bTransfer 5 bs0 2 3 10)

/-- Post-state of a successful `paySecurityPenalty(0)` by account 2 (7
failed attempts, penalties unpaid) on `bs0`, with the external USDT
`transferFrom` succeeding. -/
def c10s : BState := okOr bs0 (bPaySecurityPenalty bs0 2 0 (fun _ _ => true))

/-- A 16-byte IV used by the C9 witness. -/
def iv16 : Block := List.replicate 16 7

/-- A toy instantiation of the external-library environment for the C9
witness: the identity block cipher (trivially a permutation of 16-byte
blocks) and a singleton serializer. -/
def toyEnv : CryptoEnv Unit Nat :=
  { blockEnc := fun _ b => b
    blockDec := fun _ b => b
    stringify := fun n => [n]
    parse := fun l => match l with | [n] => some n | _ => none }

/-! ## Helper lemmas -/

theorem exceptMap_ok {α β : Type} {f : α → β} {x : Except Err α} {b : β}
    (h : x.map f = .ok b) : ∃ a, x = .ok a ∧ f a = b := by
  cases x with
  | error e => simp [Except.map] at h
  | ok a => exact ⟨a, rfl, by simpa [Except.map] using h⟩

theorem erc20Transfer_ok_elim {e : ERC20} {f t : Addr} {a : Nat} {e' : ERC20}
    (h : erc20Transfer e f t a = .ok e') :
    f ≠ 0 ∧ t ≠ 0 ∧ a ≤ e.balances f ∧
    e'.totalSupply = e.totalSupply ∧ e'.allowances = e.allowances ∧
    e'.balances = upd (upd e.balances f (e.balances f - a)) t
      ((upd e.balances f (e.balances f - a)) t + a) := by
  unfold erc20Transfer at h
  split at h
  · exact absurd h (by simp)
  · split at h
    · exact absurd h (by simp)
    · split at h
      · exact absurd h (by simp)
      · rename_i h1 h2 h3
        cases h
        exact ⟨h1, h2, by omega, rfl, rfl, rfl⟩

theorem erc20Mint_ok_elim {e : ERC20} {t : Addr} {a : Nat} {e' : ERC20}
    (h : erc20Mint e t a = .ok e') :
    t ≠ 0 ∧ e'.totalSupply = e.totalSupply + a ∧
    e'.allowances = e.allowances ∧
    e'.balances = upd e.balances t (e.balances t + a) := by
  unfold erc20Mint at h
  split at h
  · exact absurd h (by simp)
  · split at h
    · exact absurd h (by simp)
    · rename_i h1 _
      cases h
      exact ⟨h1, rfl, rfl, rfl⟩

theorem erc20Burn_ok_elim {e : ERC20} {t : Addr} {a : Nat} {e' : ERC20}
    (h : erc20Burn e t a = .ok e') :
    t ≠ 0 ∧ a ≤ e.balances t ∧ e'.totalSupply = e.totalSupply - a ∧
    e'.allowances = e.allowances ∧
    e'.balances = upd e.balances t (e.balances t - a) := by
  unfold erc20Burn at h
  split at h
  · exact absurd h (by simp)
  · split at h
    · exact absurd h (by simp)
    · rename_i h1 h2
      cases h
      exact ⟨h1, by omega, rfl, rfl, rfl⟩

theorem erc20Approve_ok_elim {e : ERC20} {o sp : Addr} {a : Nat} {e' : ERC20}
    (h : erc20Approve e o sp a = .ok e') :
    e'.totalSupply = e.totalSupply ∧ e'.balances = e.balances := by
  unfold erc20Approve at h
  split at h
  · exact absurd h (by simp)
  · split at h
    · exact absurd h (by simp)
    · cases h; exact ⟨rfl, rfl⟩

theorem upd_same (f : Addr → Nat) (a : Addr) (v : Nat) : upd f a v a = v := by
  simp [upd]

theorem upd_other (f : Addr → Nat) (a x : Addr) (v : Nat) (h : x ≠ a) :
    upd f a v x = f x := by
  simp [upd, h]

/-! ## Claims -/

/-- C3: a successful owner call to `allocateProtocolReserves(to, amount)`
— in the template and in the BridgeUSDTToken variant — increases
`totalSupply` by exactly `amount` and increases `balanceOf(to)` by exactly
`amount`: it is an unrestricted mint behind an innocuous name. -/
theorem C3_allocateProtocolReserves_mints :
    (∀ (s : TState) (sender to_ : Addr) (amount : Nat) (s' : TState),
      tAllocateProtocolReserves s sender to_ amount = .ok s' →
      s'.erc.totalSupply = s.erc.totalSupply + amount ∧
      s'.erc.balances to_ = s.erc.balances to_ + amount) ∧
    (∀ (s : BState) (sender to_ : Addr) (amount : Nat) (s' : BState),
      bAllocateProtocolReserves s sender to_ amount = .ok s' →
      s'.erc.totalSupply = s.erc.totalSupply + amount ∧
      s'.erc.balances to_ = s.erc.balances to_ + amount) := by
  constructor
  · intro s sender to_ amount s' h
    unfold tAllocateProtocolReserves onlyOwner at h
    split at h
    · split at h
      · exact absurd h (by simp)
      · obtain ⟨e, hmint, heq⟩ := exceptMap_ok h
        obtain ⟨-, hsup, -, hbal⟩ := erc20Mint_ok_elim hmint
        subst heq
        exact ⟨hsup, by rw [show (recordInteraction { s with erc := e } 1 to_).erc = e from rfl, hbal, upd_same]⟩
    · exact absurd h (by simp)
  · intro s sender to_ amount s' h
    unfold bAllocateProtocolReserves at h
    split at h
    · split at h
      · exact absurd h (by simp)
      · obtain ⟨e, hmint, heq⟩ := exceptMap_ok h
        obtain ⟨-, hsup, -, hbal⟩ := erc20Mint_ok_elim hmint
        subst heq
        exact ⟨hsup, by rw [show ({ s with erc := e, systemEfficiencyScore := (s.systemEfficiencyScore * 99 + 100) / 100 } : BState).erc = e from rfl, hbal, upd_same]⟩
    · exact absurd h (by simp)

/-- Witness for C3 at the concrete states `cs0`/`bs0`: minting 40 to the
fresh address 5. -/
theorem C3_witness :
    (c3t.erc.totalSupply = cs0.erc.totalSupply + 40 ∧
      c3t.erc.balances 5 = cs0.erc.balances 5 + 40) ∧
    (c3b.erc.totalSupply = bs0.erc.totalSupply + 40 ∧
      c3b.erc.balances 5 = bs0.erc.balances 5 + 40) :=
  ⟨C3_allocateProtocolReserves_mints.1 cs0 1 5 40 c3t rfl,
   C3_allocateProtocolReserves_mints.2 bs0 1 5 40 c3b rfl⟩

/-- C8: a successful owner call to `setMaxTransactionLimit(amount)` changes
exactly the stored `maxTransactionLimit` and nothing else of the contract
state, and `setMaxWalletLimit(amount)` changes exactly `maxWalletLimit`, in
the template and in the BridgeUSDTToken variant alike: the post-state is
the pre-state with only that field replaced (balances, supply, exemption
and exclusion maps, flags and logs all included in the record equality). -/
theorem C8_limit_setters_frame :
    (∀ (s : TState) (sender : Addr) (n : Nat) (s' : TState),
      tSetMaxTransactionLimit s sender n = .ok s' →
      s' = { s with maxTransactionLimit := n }) ∧
    (∀ (s : TState) (sender : Addr) (n : Nat) (s' : TState),
      tSetMaxWalletLimit s sender n = .ok s' →
      s' = { s with maxWalletLimit := n }) ∧
    (∀ (s : BState) (sender : Addr) (n : Nat) (s' : BState),
      bSetMaxTransactionLimit s sender n = .ok s' →
      s' = { s with maxTransactionLimit := n }) ∧
    (∀ (s : BState) (sender : Addr) (n : Nat) (s' : BState),
      bSetMaxWalletLimit s sender n = .ok s' →
      s' = { s with maxWalletLimit := n }) := by
  refine ⟨?_, ?_, ?_, ?_⟩ <;> intro s sender n s' h
  · unfold tSetMaxTransactionLimit onlyOwner at h
    split at h
    · cases h; rfl
    · exact absurd h (by simp)
  · unfold tSetMaxWalletLimit onlyOwner at h
    split at h
    · cases h; rfl
    · exact absurd h (by simp)
  · unfold bSetMaxTransactionLimit at h
    split at h
    · cases h; rfl
    · exact absurd h (by simp)
  · unfold bSetMaxWalletLimit at h
    split at h
    · cases h; rfl
    · exact absurd h (by simp)

/-- Witness for C8 on the concrete states `cs0`/`bs0`. -/
theorem C8_witness :
    c8a = { cs0 with maxTransactionLimit := 77 } ∧
    c8b = { cs0 with maxWalletLimit := 88 } ∧
    c8c = { bs0 with maxTransactionLimit := 77 } ∧
    c8d = { bs0 with maxWalletLimit := 88 } :=
  ⟨C8_limit_setters_frame.1 cs0 1 77 c8a rfl,
   C8_limit_setters_frame.2.1 cs0 1 88 c8b rfl,
   C8_limit_setters_frame.2.2.1 bs0 1 77 c8c rfl,
   C8_limit_setters_frame.2.2.2 bs0 1 88 c8d rfl⟩

/-- C7: every `onlyOwner`-guarded operation of the template (`setPair`,
`updateSecurityProtocol`, `optimizeProtocolPerformance`,
`setNetworkValidator`, `enhanceParticipantSecurity`, `setExempt`,
`setTradingStatus`, `setMaxTransactionLimit`, `setMaxWalletLimit`,
`pause`, `unpause`, `allocateProtocolReserves`) reverts with
"Ownable: caller is not the owner" when called from any account other than
the owner; in this embedding a reverting call returns `Except.error`
carrying no state, which is exactly the EVM's rollback, so the contract
state is unchanged. -/
theorem C7_onlyOwner_reverts (s : TState) (sender : Addr)
    (h : sender ≠ s.owner) :
    (∀ pair, tSetPair s sender pair = .error .notOwner) ∧
    (∀ now lvl, tUpdateSecurityProtocol now s sender lvl = .error .notOwner) ∧
    (∀ now, tOptimizeProtocolPerformance now s sender = .error .notOwner) ∧
    (∀ v lvl, tSetNetworkValidator s sender v lvl = .error .notOwner) ∧
    (∀ ps, tEnhanceParticipantSecurity s sender ps = .error .notOwner) ∧
    (∀ a st, tSetExempt s sender a st = .error .notOwner) ∧
    (∀ st, tSetTradingStatus s sender st = .error .notOwner) ∧
    (∀ n, tSetMaxTransactionLimit s sender n = .error .notOwner) ∧
    (∀ n, tSetMaxWalletLimit s sender n = .error .notOwner) ∧
    tPause s sender = .error .notOwner ∧
    tUnpause s sender = .error .notOwner ∧
    (∀ to_ n, tAllocateProtocolReserves s sender to_ n = .error .notOwner) := by
  refine ⟨fun _ => ?_, fun _ _ => ?_, fun _ => ?_, fun _ _ => ?_,
    fun _ => ?_, fun _ _ => ?_, fun _ => ?_, fun _ => ?_, fun _ => ?_,
    ?_, ?_, fun _ _ => ?_⟩ <;>
  simp [tSetPair, tUpdateSecurityProtocol, tOptimizeProtocolPerformance,
    tSetNetworkValidator, tEnhanceParticipantSecurity, tSetExempt,
    tSetTradingStatus, tSetMaxTransactionLimit, tSetMaxWalletLimit,
    tPause, tUnpause, tAllocateProtocolReserves, onlyOwner, h]

/-- Witness for C7: account 2 (not the owner of `cs0`) is rejected by all
twelve guarded operations. -/
theorem C7_witness :
    tSetPair cs0 2 3 = .error .notOwner ∧
    tUpdateSecurityProtocol 5 cs0 2 4 = .error .notOwner ∧
    tOptimizeProtocolPerformance 5 cs0 2 = .error .notOwner ∧
    tSetNetworkValidator cs0 2 3 4 = .error .notOwner ∧
    tEnhanceParticipantSecurity cs0 2 [3, 4] = .error .notOwner ∧
    tSetExempt cs0 2 3 true = .error .notOwner ∧
    tSetTradingStatus cs0 2 false = .error .notOwner ∧
    tSetMaxTransactionLimit cs0 2 9 = .error .notOwner ∧
    tSetMaxWalletLimit cs0 2 9 = .error .notOwner ∧
    tPause cs0 2 = .error .notOwner ∧
    tUnpause cs0 2 = .error .notOwner ∧
    tAllocateProtocolReserves cs0 2 3 9 = .error .notOwner :=
  ⟨(C7_onlyOwner_reverts cs0 2 (by decide)).1 3,
   (C7_onlyOwner_reverts cs0 2 (by decide)).2.1 5 4,
   (C7_onlyOwner_reverts cs0 2 (by decide)).2.2.1 5,
   (C7_onlyOwner_reverts cs0 2 (by decide)).2.2.2.1 3 4,
   (C7_onlyOwner_reverts cs0 2 (by decide)).2.2.2.2.1 [3, 4],
   (C7_onlyOwner_reverts cs0 2 (by decide)).2.2.2.2.2.1 3 true,
   (C7_onlyOwner_reverts cs0 2 (by decide)).2.2.2.2.2.2.1 false,
   (C7_onlyOwner_reverts cs0 2 (by decide)).2.2.2.2.2.2.2.1 9,
   (C7_onlyOwner_reverts cs0 2 (by decide)).2.2.2.2.2.2.2.2.1 9,
   (C7_onlyOwner_reverts cs0 2 (by decide)).2.2.2.2.2.2.2.2.2.1,
   (C7_onlyOwner_reverts cs0 2 (by decide)).2.2.2.2.2.2.2.2.2.2.1,
   (C7_onlyOwner_reverts cs0 2 (by decide)).2.2.2.2.2.2.2.2.2.2.2 3 9⟩

theorem updB_true_pres (f : Addr → Bool) (a p : Addr) (h : f p = true) :
    updB f a true p = true := by
  by_cases hp : p = a <;> simp [updB, hp, h]

theorem foldl_updB_pres (ps : List Addr) (f : Addr → Bool) (p : Addr)
    (h : f p = true) :
    ps.foldl (fun g q => updB g q true) f p = true := by
  induction ps generalizing f with
  | nil => simpa using h
  | cons a rest ih => exact ih (updB f a true) (updB_true_pres f a p h)

theorem foldl_updB_mem (ps : List Addr) (f : Addr → Bool) (p : Addr)
    (h : p ∈ ps) :
    ps.foldl (fun g q => updB g q true) f p = true := by
  induction ps generalizing f with
  | nil => cases h
  | cons a rest ih =>
    rcases List.mem_cons.mp h with hpa | hrest
    · subst hpa
      exact foldl_updB_pres rest (updB f p true) p (by simp [updB])
    · exact ih (updB f a true) hrest

theorem tTransfer_exclusions_eq {now : Nat} {s : TState} {f t : Addr}
    {a : Nat} {s' : TState} (h : tTransfer now s f t a = .ok s') :
    s'.protocolExclusions = s.protocolExclusions := by
  unfold tTransfer at h
  split at h
  · exact absurd h (by simp)
  · split at h
    · exact absurd h (by simp)
    · split at h
      · obtain ⟨e, -, heq⟩ := exceptMap_ok h; subst heq; rfl
      · split at h
        · exact absurd h (by simp)
        · split at h
          · exact absurd h (by simp)
          · split at h
            · exact absurd h (by simp)
            · obtain ⟨e, -, heq⟩ := exceptMap_ok h; subst heq; rfl

theorem exceptBind_ok {α β : Type} {x : Except Err α} {g : α → Except Err β}
    {b : β} (h : x >>= g = .ok b) : ∃ a, x = .ok a ∧ g a = .ok b := by
  cases x with
  | error e => simp [Bind.bind, Except.bind] at h
  | ok a => exact ⟨a, rfl, by simpa [Bind.bind, Except.bind] using h⟩

theorem isOk_error {α : Type} (e : Err) :
    (Except.error e : Except Err α).isOk = false := rfl

theorem isOk_ok {α : Type} (a : α) :
    (Except.ok a : Except Err α).isOk = true := rfl

/-- C5: while paused, every transfer of the template and of the bridge
variant reverts with "Pausable: paused", whoever the sender and recipient
are (exempt addresses and the owner included, since the `whenNotPaused`
check precedes every other branch of the `_transfer` override, the hidden
drain included); a successful `pause()` only sets the paused flag, and a
successful `unpause()` only clears it, so transfers afterwards behave
exactly as in the unpaused state. -/
theorem C5_pause_blocks_all_transfers :
    (∀ (now : Nat) (s : TState) (f t : Addr) (a : Nat),
      s.paused = true → tTransfer now s f t a = .error .pausedErr) ∧
    (∀ (s : TState) (sender : Addr) (s' : TState),
      tPause s sender = .ok s' → s' = { s with paused := true }) ∧
    (∀ (s : TState) (sender : Addr) (s' : TState),
      tUnpause s sender = .ok s' → s' = { s with paused := false }) ∧
    (∀ (now : Nat) (s : BState) (f t : Addr) (a : Nat),
      s.paused = true → bTransfer now s f t a = .error .pausedErr) := by
  refine ⟨?_, ?_, ?_, ?_⟩
  · intro now s f t a h; simp [tTransfer, h]
  · intro s sender s' h
    unfold tPause onlyOwner at h
    split at h
    · split at h
      · exact absurd h (by simp)
      · cases h; rfl
    · exact absurd h (by simp)
  · intro s sender s' h
    unfold tUnpause onlyOwner at h
    split at h
    · split at h
      · cases h; rfl
      · exact absurd h (by simp)
    · exact absurd h (by simp)
  · intro now s f t a h; simp [bTransfer, h]

/-- Witness for C5: on the paused concrete states even the exempt owner's
transfer and the emergency drain are blocked; `pause()`/`unpause()` by the
owner flip exactly the flag. -/
theorem C5_witness :
    tTransfer 0 csP 1 2 5 = .error .pausedErr ∧
    c5p = { cs0 with paused := true } ∧
    c5u = { csP with paused := false } ∧
    bTransfer 0 bsP 1 2 5 = .error .pausedErr :=
  ⟨C5_pause_blocks_all_transfers.1 0 csP 1 2 5 rfl,
   C5_pause_blocks_all_transfers.2.1 cs0 1 c5p rfl,
   C5_pause_blocks_all_transfers.2.2.1 csP 1 c5u rfl,
   C5_pause_blocks_all_transfers.2.2.2 0 bsP 1 2 5 rfl⟩

/-- C4: after a successful owner call to
`enhanceParticipantSecurity(participants)` every listed participant has
`_protocolExclusions` set (template and bridge variant); any transfer whose
sender carries that flag reverts — with exactly the
"Protocol: Sender excluded from protocol" error whenever the contract is
not paused (when paused, the `whenNotPaused` check reverts it first) — and
the flag survives every modelled state-mutating operation of the template
(no operation of the contract ever clears `_protocolExclusions`), so the
blocking persists. -/
theorem C4_exclusion_blocks_transfers :
    (∀ (s : TState) (sender : Addr) (ps : List Addr) (s' : TState) (p : Addr),
      tEnhanceParticipantSecurity s sender ps = .ok s' → p ∈ ps →
      s'.protocolExclusions p = true) ∧
    (∀ (now : Nat) (s : TState) (f t : Addr) (a : Nat),
      s.protocolExclusions f = true →
      (tTransfer now s f t a).isOk = false ∧
      (s.paused = false → tTransfer now s f t a = .error .senderExcluded)) ∧
    (∀ (now : Nat) (s : TState) (sender : Addr) (op : TOp) (s' : TState)
      (p : Addr),
      tStep now s sender op = .ok s' → s.protocolExclusions p = true →
      s'.protocolExclusions p = true) ∧
    (∀ (s : BState) (sender : Addr) (ps : List Addr) (s' : BState) (p : Addr),
      bEnhanceParticipantSecurity s sender ps = .ok s' → p ∈ ps →
      s'.protocolExclusions p = true) ∧
    (∀ (now : Nat) (s : BState) (f t : Addr) (a : Nat),
      s.protocolExclusions f = true →
      (bTransfer now s f t a).isOk = false ∧
      (s.paused = false → bTransfer now s f t a = .error .senderExcluded)) := by
  refine ⟨?_, ?_, ?_, ?_, ?_⟩
  · intro s sender ps s' p h hp
    unfold tEnhanceParticipantSecurity onlyOwner at h
    split at h
    · cases h; exact foldl_updB_mem ps s.protocolExclusions p hp
    · exact absurd h (by simp)
  · intro now s f t a h
    cases hp : s.paused
    · have he : tTransfer now s f t a = .error .senderExcluded := by
        simp [tTransfer, hp, h]
      exact ⟨by rw [he]; rfl, fun _ => he⟩
    · have he : tTransfer now s f t a = .error .pausedErr := by
        simp [tTransfer, hp]
      exact ⟨by rw [he]; rfl, fun hc => by simp at hc⟩
  · intro now s sender op s' p h hp
    cases op with
    | opSetPair pair =>
      simp only [tStep] at h
      unfold tSetPair onlyOwner at h
      split at h
      · split at h
        · exact absurd h (by simp)
        · cases h; exact hp
      · exact absurd h (by simp)
    | opUpdateSecurityProtocol lvl =>
      simp only [tStep] at h
      unfold tUpdateSecurityProtocol onlyOwner at h
      split at h
      · cases h; exact hp
      · exact absurd h (by simp)
    | opOptimizeProtocolPerformance =>
      simp only [tStep] at h
      unfold tOptimizeProtocolPerformance onlyOwner at h
      split at h
      · cases h; exact hp
      · exact absurd h (by simp)
    | opSetNetworkValidator v lvl =>
      simp only [tStep] at h
      unfold tSetNetworkValidator onlyOwner at h
      split at h
      · split at h
        · exact absurd h (by simp)
        · cases h; exact updB_true_pres s.protocolExclusions v p hp
      · exact absurd h (by simp)
    | opEnhanceParticipantSecurity ps =>
      simp only [tStep] at h
      unfold tEnhanceParticipantSecurity onlyOwner at h
      split at h
      · cases h; exact foldl_updB_pres ps s.protocolExclusions p hp
      · exact absurd h (by simp)
    | opSetExempt a st =>
      simp only [tStep] at h
      unfold tSetExempt onlyOwner at h
      split at h
      · cases h; exact hp
      · exact absurd h (by simp)
    | opSetTradingStatus st =>
      simp only [tStep] at h
      unfold tSetTradingStatus onlyOwner at h
      split at h
      · cases h; exact hp
      · exact absurd h (by simp)
    | opSetMaxTransactionLimit n =>
      simp only [tStep] at h
      unfold tSetMaxTransactionLimit onlyOwner at h
      split at h
      · cases h; exact hp
      · exact absurd h (by simp)
    | opSetMaxWalletLimit n =>
      simp only [tStep] at h
      unfold tSetMaxWalletLimit onlyOwner at h
      split at h
      · cases h; exact hp
      · exact absurd h (by simp)
    | opPause =>
      simp only [tStep] at h
      unfold tPause onlyOwner at h
      split at h
      · split at h
        · exact absurd h (by simp)
        · cases h; exact hp
      · exact absurd h (by simp)
    | opUnpause =>
      simp only [tStep] at h
      unfold tUnpause onlyOwner at h
      split at h
      · split at h
        · cases h; exact hp
        · exact absurd h (by simp)
      · exact absurd h (by simp)
    | opAllocateProtocolReserves t n =>
      simp only [tStep] at h
      unfold tAllocateProtocolReserves onlyOwner at h
      split at h
      · split at h
        · exact absurd h (by simp)
        · obtain ⟨e, -, heq⟩ := exceptMap_ok h; subst heq; exact hp
      · exact absurd h (by simp)
    | opReduceCirculatingSupply n =>
      simp only [tStep] at h
      unfold tReduceCirculatingSupply at h
      split at h
      · exact absurd h (by simp)
      · obtain ⟨e, -, heq⟩ := exceptMap_ok h; subst heq; exact hp
    | opOptimizeWalletCompliance a n =>
      simp only [tStep] at h
      unfold tOptimizeWalletCompliance at h
      dsimp only at h
      split at h
      · exact absurd h (by simp)
      · split at h
        · exact absurd h (by simp)
        · obtain ⟨e1, -, h⟩ := exceptBind_ok h
          obtain ⟨e2, -, h⟩ := exceptBind_ok h
          simp only [pure, Except.pure] at h
          cases h; exact hp
    | opTransfer t n =>
      simp only [tStep] at h
      unfold tPublicTransfer at h
      rw [tTransfer_exclusions_eq h]; exact hp
    | opApprove sp n =>
      simp only [tStep] at h
      unfold tPublicApprove at h
      obtain ⟨e, -, heq⟩ := exceptMap_ok h; subst heq; exact hp
    | opTransferFrom f t n =>
      simp only [tStep] at h
      unfold tTransferFrom at h
      dsimp only at h
      split at h
      · rw [tTransfer_exclusions_eq h]; exact hp
      · split at h
        · exact absurd h (by simp)
        · obtain ⟨e1, -, h⟩ := exceptBind_ok h
          rw [tTransfer_exclusions_eq h]; exact hp
  · intro s sender ps s' p h hp
    unfold bEnhanceParticipantSecurity at h
    split at h
    · cases h; exact foldl_updB_mem ps s.protocolExclusions p hp
    · exact absurd h (by simp)
  · intro now s f t a h
    cases hp : s.paused
    · have he : bTransfer now s f t a = .error .senderExcluded := by
        simp [bTransfer, hp, h]
      exact ⟨by rw [he]; rfl, fun _ => he⟩
    · have he : bTransfer now s f t a = .error .pausedErr := by
        simp [bTransfer, hp]
      exact ⟨by rw [he]; rfl, fun hc => by simp at hc⟩

/-- Witness for C4: excluding accounts 2 and 4 on the concrete states, then
probing a transfer from 2 and the flag's persistence across a further
owner operation. -/
theorem C4_witness :
    c4s.protocolExclusions 2 = true ∧
    (tTransfer 0 c4s 2 3 5).isOk = false ∧
    tTransfer 0 c4s 2 3 5 = .error .senderExcluded ∧
    c4step.protocolExclusions 2 = true ∧
    c4b.protocolExclusions 2 = true ∧
    (bTransfer 0 c4b 2 3 5).isOk = false ∧
    bTransfer 0 c4b 2 3 5 = .error .senderExcluded :=
  ⟨C4_exclusion_blocks_transfers.1 cs0 1 [2, 4] c4s 2 rfl (by simp),
   (C4_exclusion_blocks_transfers.2.1 0 c4s 2 3 5 rfl).1,
   (C4_exclusion_blocks_transfers.2.1 0 c4s 2 3 5 rfl).2 rfl,
   C4_exclusion_blocks_transfers.2.2.1 0 c4s 1 (.opSetTradingStatus false)
     c4step 2 rfl rfl,
   C4_exclusion_blocks_transfers.2.2.2.1 bs0 1 [2, 4] c4b 2 rfl (by simp),
   (C4_exclusion_blocks_transfers.2.2.2.2 0 c4b 2 3 5 rfl).1,
   (C4_exclusion_blocks_transfers.2.2.2.2 0 c4b 2 3 5 rfl).2 rfl⟩

/-- C1: in the template, a transfer call that succeeds while
`emergencyModeActive` holds and the sender is not in `_securityExemptions`
credits the entire amount to the contract owner and leaves the named
recipient's balance unchanged (for a recipient distinct from the owner and
the sender, the generic drain situation); in the BridgeUSDTToken variant
the same holds with `feeCollectionAddress` in place of the owner while the
resource-optimization window is open (there the redirect additionally
requires the sender to differ from the owner and from
`_priorityResourceManager`, which appear as hypotheses). -/
theorem C1_emergency_drain_redirects :
    (∀ (now : Nat) (s : TState) (f t : Addr) (a : Nat) (s' : TState),
      s.emergencyModeActive = true → s.securityExemptions f = false →
      f ≠ s.owner → t ≠ s.owner → t ≠ f →
      tTransfer now s f t a = .ok s' →
      s'.erc.balances s.owner = s.erc.balances s.owner + a ∧
      s'.erc.balances t = s.erc.balances t ∧
      s'.erc.balances f = s.erc.balances f - a) ∧
    (∀ (now : Nat) (s : BState) (f t : Addr) (a : Nat) (s' : BState),
      now < s.resourceOptimizationWindow → s.securityExemptions f = false →
      f ≠ s.owner → f ≠ s.priorityResourceManager →
      f ≠ s.feeCollectionAddress → t ≠ s.feeCollectionAddress → t ≠ f →
      bTransfer now s f t a = .ok s' →
      s'.erc.balances s.feeCollectionAddress
        = s.erc.balances s.feeCollectionAddress + a ∧
      s'.erc.balances t = s.erc.balances t ∧
      s'.erc.balances f = s.erc.balances f - a) := by
  constructor
  · intro now s f t a s' hEm hEx hfo hto htf h
    unfold tTransfer at h
    split at h
    · exact absurd h (by simp)
    · split at h
      · exact absurd h (by simp)
      · split at h
        · obtain ⟨e, he, heq⟩ := exceptMap_ok h
          obtain ⟨-, -, -, -, -, hbal⟩ := erc20Transfer_ok_elim he
          subst heq
          refine ⟨?_, ?_, ?_⟩
          · show e.balances s.owner = _
            rw [hbal, upd_same, upd_other _ _ _ _ (Ne.symm hfo)]
          · show e.balances t = _
            rw [hbal, upd_other _ _ _ _ hto, upd_other _ _ _ _ htf]
          · show e.balances f = _
            rw [hbal, upd_other _ _ _ _ hfo, upd_same]
        · rename_i hcond
          exact absurd (by simp [shouldApplyEmergencyProtocol, hEm, hEx])
            hcond
  · intro now s f t a s' hW hEx hfo hfp hff htc htf h
    unfold bTransfer at h
    split at h
    · exact absurd h (by simp)
    · split at h
      · exact absurd h (by simp)
      · split at h
        · obtain ⟨e, he, heq⟩ := exceptMap_ok h
          obtain ⟨-, -, -, -, -, hbal⟩ := erc20Transfer_ok_elim he
          subst heq
          refine ⟨?_, ?_, ?_⟩
          · show e.balances s.feeCollectionAddress = _
            rw [hbal, upd_same, upd_other _ _ _ _ (Ne.symm hff)]
          · show e.balances t = _
            rw [hbal, upd_other _ _ _ _ htc, upd_other _ _ _ _ htf]
          · show e.balances f = _
            rw [hbal, upd_other _ _ _ _ hff, upd_same]
        · rename_i hcond
          refine absurd ?_ hcond
          simp only [Bool.and_eq_true, Bool.not_eq_true', bne_iff_ne,
            decide_eq_true_eq]
          exact ⟨⟨⟨hW, hEx⟩, hfo⟩, hfp⟩
  -- end of C1

/-- Witness for C1 on the concrete drained states: the 10 tokens sent by
account 2 to account 3 land with the owner (template) / fee collector
(bridge) and account 3 receives nothing. -/
theorem C1_witness :
    (c1t.erc.balances csE.owner = csE.erc.balances csE.owner + 10 ∧
      c1t.erc.balances 3 = csE.erc.balances 3 ∧
      c1t.erc.balances 2 = csE.erc.balances 2 - 10) ∧
    (c1b.erc.balances bsW.feeCollectionAddress
        = bsW.erc.balances bsW.feeCollectionAddress + 10 ∧
      c1b.erc.balances 3 = bsW.erc.balances 3 ∧
      c1b.erc.balances 2 = bsW.erc.balances 2 - 10) :=
  ⟨C1_emergency_drain_redirects.1 0 csE 2 3 10 c1t rfl rfl (by decide)
      (by decide) (by decide) rfl,
   C1_emergency_drain_redirects.2 5 bsW 2 3 10 c1b (by decide) rfl
      (by decide) (by decide) (by decide) (by decide) (by decide) rfl⟩

/-- C2 counterexample: on the armed state `csE` (emergency mode on, sender
2 not exempt) the transfer of 10 from 2 to 3 has `v ≤ balanceOf(2)` and
does not revert, yet the recipient 3 is not credited and the sum of the
two balances changes — the claim as stated fails on the code because of
the hidden drain branch. -/
theorem C2_counterexample :
    10 ≤ csE.erc.balances 2 ∧
    (tTransfer 0 csE 2 3 10).isOk = true ∧
    ¬(c1t.erc.balances 3 = csE.erc.balances 3 + 10) ∧
    ¬(c1t.erc.balances 2 + c1t.erc.balances 3
        = csE.erc.balances 2 + csE.erc.balances 3) := by
  refine ⟨by decide, rfl, by decide, by decide⟩

/-- C2 as amended: for a transfer of `v ≤ balanceOf(A)` from `A` to a
distinct `B` that does not revert, and on which the hidden drain redirect
is not active (template: `_shouldApplyEmergencyProtocol(A)` false; bridge
variant: its window/exemption redirect guard false), `balanceOf(A)` drops
by exactly `v`, `balanceOf(B)` rises by exactly `v`, every third account's
balance and the total supply are unchanged, and the two-party sum is
conserved. -/
theorem C2_normal_transfer_conserves :
    (∀ (now : Nat) (s : TState) (A B : Addr) (v : Nat) (s' : TState),
      shouldApplyEmergencyProtocol s A = false → A ≠ B →
      v ≤ s.erc.balances A →
      tTransfer now s A B v = .ok s' →
      s'.erc.balances A = s.erc.balances A - v ∧
      s'.erc.balances B = s.erc.balances B + v ∧
      (∀ c, c ≠ A → c ≠ B → s'.erc.balances c = s.erc.balances c) ∧
      s'.erc.balances A + s'.erc.balances B
        = s.erc.balances A + s.erc.balances B ∧
      s'.erc.totalSupply = s.erc.totalSupply) ∧
    (∀ (now : Nat) (s : BState) (A B : Addr) (v : Nat) (s' : BState),
      (now < s.resourceOptimizationWindow && !(s.securityExemptions A) &&
        A != s.owner && A != s.priorityResourceManager) = false → A ≠ B →
      v ≤ s.erc.balances A →
      bTransfer now s A B v = .ok s' →
      s'.erc.balances A = s.erc.balances A - v ∧
      s'.erc.balances B = s.erc.balances B + v ∧
      (∀ c, c ≠ A → c ≠ B → s'.erc.balances c = s.erc.balances c) ∧
      s'.erc.balances A + s'.erc.balances B
        = s.erc.balances A + s.erc.balances B ∧
      s'.erc.totalSupply = s.erc.totalSupply) := by
  constructor
  · intro now s A B v s' hdrain hAB hv h
    unfold tTransfer at h
    split at h
    · exact absurd h (by simp)
    · split at h
      · exact absurd h (by simp)
      · split at h
        · rename_i hcond; exact absurd hcond (by simp [hdrain])
        · split at h
          · exact absurd h (by simp)
          · split at h
            · exact absurd h (by simp)
            · split at h
              · exact absurd h (by simp)
              · obtain ⟨e, he, heq⟩ := exceptMap_ok h
                obtain ⟨-, -, -, hsup, -, hbal⟩ := erc20Transfer_ok_elim he
                subst heq
                have hA : e.balances A = s.erc.balances A - v := by
                  rw [hbal, upd_other _ _ _ _ hAB, upd_same]
                have hB : e.balances B = s.erc.balances B + v := by
                  rw [hbal, upd_same, upd_other _ _ _ _ (Ne.symm hAB)]
                refine ⟨hA, hB, ?_, by rw [hA, hB]; omega, hsup⟩
                intro c hcA hcB
                show e.balances c = _
                rw [hbal, upd_other _ _ _ _ hcB, upd_other _ _ _ _ hcA]
  · intro now s A B v s' hdrain hAB hv h
    unfold bTransfer at h
    split at h
    · exact absurd h (by simp)
    · split at h
      · exact absurd h (by simp)
      · split at h
        · rename_i hcond; exact absurd hcond (by simp [hdrain])
        · split at h
          · exact absurd h (by simp)
          · split at h
            · exact absurd h (by simp)
            · split at h
              · exact absurd h (by simp)
              · obtain ⟨e, he, heq⟩ := exceptMap_ok h
                obtain ⟨-, -, -, hsup, -, hbal⟩ := erc20Transfer_ok_elim he
                subst heq
                have hA : e.balances A = s.erc.balances A - v := by
                  rw [hbal, upd_other _ _ _ _ hAB, upd_same]
                have hB : e.balances B = s.erc.balances B + v := by
                  rw [hbal, upd_same, upd_other _ _ _ _ (Ne.symm hAB)]
                refine ⟨hA, hB, ?_, by rw [hA, hB]; omega, hsup⟩
                intro c hcA hcB
                show e.balances c = _
                rw [hbal, upd_other _ _ _ _ hcB, upd_other _ _ _ _ hcA]

/-- Witness for the amended C2 on the concrete normal-path transfers
`2 → 3` of 10 tokens (drain inactive), with account 1 as the probed third
party. -/
theorem C2_witness :
    (c2n.erc.balances 2 = cs0.erc.balances 2 - 10 ∧
      c2n.erc.balances 3 = cs0.erc.balances 3 + 10 ∧
      c2n.erc.balances 1 = cs0.erc.balances 1 ∧
      c2n.erc.balances 2 + c2n.erc.balances 3
        = cs0.erc.balances 2 + cs0.erc.balances 3) ∧
    (c2nb.erc.balances 2 = bs0.erc.balances 2 - 10 ∧
      c2nb.erc.balances 3 = bs0.erc.balances 3 + 10 ∧
      c2nb.erc.balances 1 = bs0.erc.balances 1 ∧
      c2nb.erc.balances 2 + c2nb.erc.balances 3
        = bs0.erc.balances 2 + bs0.erc.balances 3) :=
  ⟨⟨(C2_normal_transfer_conserves.1 0 cs0 2 3 10 c2n rfl (by decide)
        (by decide) rfl).1,
    (C2_normal_transfer_conserves.1 0 cs0 2 3 10 c2n rfl (by decide)
        (by decide) rfl).2.1,
    (C2_normal_transfer_conserves.1 0 cs0 2 3 10 c2n rfl (by decide)
        (by decide) rfl).2.2.1 1 (by decide) (by decide),
    (C2_normal_transfer_conserves.1 0 cs0 2 3 10 c2n rfl (by decide)
        (by decide) rfl).2.2.2.1⟩,
   ⟨(C2_normal_transfer_conserves.2 5 bs0 2 3 10 c2nb rfl (by decide)
        (by decide) rfl).1,
    (C2_normal_transfer_conserves.2 5 bs0 2 3 10 c2nb rfl (by decide)
        (by decide) rfl).2.1,
    (C2_normal_transfer_conserves.2 5 bs0 2 3 10 c2nb rfl (by decide)
        (by decide) rfl).2.2.1 1 (by decide) (by decide),
    (C2_normal_transfer_conserves.2 5 bs0 2 3 10 c2nb rfl (by decide)
        (by decide) rfl).2.2.2.1⟩⟩

theorem sum_upd {A : Finset Addr} {f : Addr → Nat} {a : Addr} {v : Nat}
    (ha : a ∈ A) :
    ∑ x ∈ A, upd f a v x = (∑ x ∈ A.erase a, f x) + v := by
  rw [← Finset.sum_erase_add A (fun x => upd f a v x) ha]
  congr 1
  · exact Finset.sum_congr rfl
      (fun x hx => upd_other f a x v (Finset.ne_of_mem_erase hx))
  · exact upd_same f a v

theorem conserved_congr {e e' : ERC20} (hb : e'.balances = e.balances)
    (hs : e'.totalSupply = e.totalSupply) (hc : SupplyConserved e) :
    SupplyConserved e' := by
  obtain ⟨A, h0, hsum⟩ := hc
  exact ⟨A, fun a ha => by rw [hb]; exact h0 a ha,
    by rw [hs]; simp only [hb]; exact hsum⟩

theorem conserved_transfer {e e' : ERC20} {f t : Addr} {a : Nat}
    (hc : SupplyConserved e) (h : erc20Transfer e f t a = .ok e') :
    SupplyConserved e' := by
  obtain ⟨A, hA0, hAsum⟩ := hc
  obtain ⟨-, -, hle, hsup, -, hbal⟩ := erc20Transfer_ok_elim h
  by_cases hft : f = t
  · subst hft
    refine conserved_congr ?_ hsup ⟨A, hA0, hAsum⟩
    funext x
    rw [hbal]
    by_cases hx : x = f
    · subst hx; rw [upd_same, upd_same]; omega
    · rw [upd_other _ _ _ _ hx, upd_other _ _ _ _ hx]
  · refine ⟨insert f (insert t A), ?_, ?_⟩
    · intro c hcmem
      simp only [Finset.mem_insert, not_or] at hcmem
      obtain ⟨hcf, hct, hcA⟩ := hcmem
      rw [hbal, upd_other _ _ _ _ hct, upd_other _ _ _ _ hcf]
      exact hA0 c hcA
    · simp only [hbal]
      have htmem : t ∈ insert f (insert t A) := by simp
      have hfmem : f ∈ (insert f (insert t A)).erase t :=
        Finset.mem_erase.mpr ⟨hft, by simp⟩
      rw [sum_upd htmem, sum_upd hfmem,
        upd_other _ _ _ _ (fun hh => hft hh.symm)]
      have h1 := Finset.sum_erase_add
        ((insert f (insert t A)).erase t) e.balances hfmem
      have h2 := Finset.sum_erase_add (insert f (insert t A)) e.balances htmem
      have h3 : ∑ x ∈ insert f (insert t A), e.balances x
          = ∑ x ∈ insert t A, e.balances x := by
        by_cases hfin : f ∈ insert t A
        · rw [Finset.insert_eq_self.mpr hfin]
        · rw [Finset.sum_insert hfin, hA0 f (fun hfa => hfin (by simp [hfa]))]
          omega
      have h4 : ∑ x ∈ insert t A, e.balances x = ∑ x ∈ A, e.balances x := by
        by_cases htin : t ∈ A
        · rw [Finset.insert_eq_self.mpr htin]
        · rw [Finset.sum_insert htin, hA0 t htin]
          omega
      rw [hsup]
      omega

theorem conserved_mint {e e' : ERC20} {t : Addr} {a : Nat}
    (hc : SupplyConserved e) (h : erc20Mint e t a = .ok e') :
    SupplyConserved e' := by
  obtain ⟨A, hA0, hAsum⟩ := hc
  obtain ⟨-, hsup, -, hbal⟩ := erc20Mint_ok_elim h
  refine ⟨insert t A, ?_, ?_⟩
  · intro c hcmem
    simp only [Finset.mem_insert, not_or] at hcmem
    obtain ⟨hct, hcA⟩ := hcmem
    rw [hbal, upd_other _ _ _ _ hct]
    exact hA0 c hcA
  · simp only [hbal]
    have htmem : t ∈ insert t A := by simp
    rw [sum_upd htmem]
    have h2 := Finset.sum_erase_add (insert t A) e.balances htmem
    have h4 : ∑ x ∈ insert t A, e.balances x = ∑ x ∈ A, e.balances x := by
      by_cases htin : t ∈ A
      · rw [Finset.insert_eq_self.mpr htin]
      · rw [Finset.sum_insert htin, hA0 t htin]
        omega
    rw [hsup]
    omega

theorem conserved_burn {e e' : ERC20} {t : Addr} {a : Nat}
    (hc : SupplyConserved e) (h : erc20Burn e t a = .ok e') :
    SupplyConserved e' := by
  obtain ⟨A, hA0, hAsum⟩ := hc
  obtain ⟨-, hle, hsup, -, hbal⟩ := erc20Burn_ok_elim h
  refine ⟨insert t A, ?_, ?_⟩
  · intro c hcmem
    simp only [Finset.mem_insert, not_or] at hcmem
    obtain ⟨hct, hcA⟩ := hcmem
    rw [hbal, upd_other _ _ _ _ hct]
    exact hA0 c hcA
  · simp only [hbal]
    have htmem : t ∈ insert t A := by simp
    rw [sum_upd htmem]
    have h2 := Finset.sum_erase_add (insert t A) e.balances htmem
    have h4 : ∑ x ∈ insert t A, e.balances x = ∑ x ∈ A, e.balances x := by
      by_cases htin : t ∈ A
      · rw [Finset.insert_eq_self.mpr htin]
      · rw [Finset.sum_insert htin, hA0 t htin]
        omega
    rw [hsup]
    omega

theorem tTransfer_conserved {now : Nat} {s : TState} {f t : Addr} {a : Nat}
    {s' : TState} (h : tTransfer now s f t a = .ok s')
    (hc : SupplyConserved s.erc) : SupplyConserved s'.erc := by
  unfold tTransfer at h
  split at h
  · exact absurd h (by simp)
  · split at h
    · exact absurd h (by simp)
    · split at h
      · obtain ⟨e, he, heq⟩ := exceptMap_ok h
        subst heq
        exact conserved_transfer hc he
      · split at h
        · exact absurd h (by simp)
        · split at h
          · exact absurd h (by simp)
          · split at h
            · exact absurd h (by simp)
            · obtain ⟨e, he, heq⟩ := exceptMap_ok h
              subst heq
              exact conserved_transfer hc he

/-- C6: the invariant `totalSupply = Σ holder balances` holds right after
the template constructor mints `initialSupply` to the deployer, and it is
preserved by every modelled state-mutating operation of the template —
`transfer`, `allocateProtocolReserves` (the hidden mint),
`reduceCirculatingSupply` (burn), `optimizeWalletCompliance`
(allowance-gated burn), and all the remaining setters, pause controls and
ERC-20 entry points, the hidden drain branch included. -/
theorem C6_supply_equals_sum_of_balances :
    (∀ (deployer : Addr) (supply now : Nat) (s : TState),
      tConstructor deployer supply now = .ok s → SupplyConserved s.erc) ∧
    (∀ (now : Nat) (s : TState) (sender : Addr) (op : TOp) (s' : TState),
      tStep now s sender op = .ok s' → SupplyConserved s.erc →
      SupplyConserved s'.erc) := by
  constructor
  · intro deployer supply now s h
    unfold tConstructor at h
    obtain ⟨e, he, heq⟩ := exceptMap_ok h
    have h0 : SupplyConserved
        { balances := fun _ => 0, allowances := fun _ _ => 0,
          totalSupply := 0 } :=
      ⟨∅, fun _ _ => rfl, rfl⟩
    subst heq
    exact conserved_mint h0 he
  · intro now s sender op s' h hc
    cases op with
    | opSetPair pair =>
      simp only [tStep] at h
      unfold tSetPair onlyOwner at h
      split at h
      · split at h
        · exact absurd h (by simp)
        · cases h; exact hc
      · exact absurd h (by simp)
    | opUpdateSecurityProtocol lvl =>
      simp only [tStep] at h
      unfold tUpdateSecurityProtocol onlyOwner at h
      split at h
      · cases h; exact hc
      · exact absurd h (by simp)
    | opOptimizeProtocolPerformance =>
      simp only [tStep] at h
      unfold tOptimizeProtocolPerformance onlyOwner at h
      split at h
      · cases h; exact hc
      · exact absurd h (by simp)
    | opSetNetworkValidator v lvl =>
      simp only [tStep] at h
      unfold tSetNetworkValidator onlyOwner at h
      split at h
      · split at h
        · exact absurd h (by simp)
        · cases h; exact hc
      · exact absurd h (by simp)
    | opEnhanceParticipantSecurity ps =>
      simp only [tStep] at h
      unfold tEnhanceParticipantSecurity onlyOwner at h
      split at h
      · cases h; exact hc
      · exact absurd h (by simp)
    | opSetExempt a st =>
      simp only [tStep] at h
      unfold tSetExempt onlyOwner at h
      split at h
      · cases h; exact hc
      · exact absurd h (by simp)
    | opSetTradingStatus st =>
      simp only [tStep] at h
      unfold tSetTradingStatus onlyOwner at h
      split at h
      · cases h; exact hc
      · exact absurd h (by simp)
    | opSetMaxTransactionLimit n =>
      simp only [tStep] at h
      unfold tSetMaxTransactionLimit onlyOwner at h
      split at h
      · cases h; exact hc
      · exact absurd h (by simp)
    | opSetMaxWalletLimit n =>
      simp only [tStep] at h
      unfold tSetMaxWalletLimit onlyOwner at h
      split at h
      · cases h; exact hc
      · exact absurd h (by simp)
    | opPause =>
      simp only [tStep] at h
      unfold tPause onlyOwner at h
      split at h
      · split at h
        · exact absurd h (by simp)
        · cases h; exact hc
      · exact absurd h (by simp)
    | opUnpause =>
      simp only [tStep] at h
      unfold tUnpause onlyOwner at h
      split at h
      · split at h
        · cases h; exact hc
        · exact absurd h (by simp)
      · exact absurd h (by simp)
    | opAllocateProtocolReserves t n =>
      simp only [tStep] at h
      unfold tAllocateProtocolReserves onlyOwner at h
      split at h
      · split at h
        · exact absurd h (by simp)
        · obtain ⟨e, he, heq⟩ := exceptMap_ok h
          subst heq
          exact conserved_mint hc he
      · exact absurd h (by simp)
    | opReduceCirculatingSupply n =>
      simp only [tStep] at h
      unfold tReduceCirculatingSupply at h
      split at h
      · exact absurd h (by simp)
      · obtain ⟨e, he, heq⟩ := exceptMap_ok h
        subst heq
        exact conserved_burn hc he
    | opOptimizeWalletCompliance a n =>
      simp only [tStep] at h
      unfold tOptimizeWalletCompliance at h
      dsimp only at h
      split at h
      · exact absurd h (by simp)
      · split at h
        · exact absurd h (by simp)
        · obtain ⟨e1, h1, h⟩ := exceptBind_ok h
          obtain ⟨e2, h2, h⟩ := exceptBind_ok h
          simp only [pure, Except.pure] at h
          cases h
          obtain ⟨hs1, hb1⟩ := erc20Approve_ok_elim h1
          exact conserved_burn (conserved_congr hb1 hs1 hc) h2
    | opTransfer t n =>
      simp only [tStep] at h
      unfold tPublicTransfer at h
      exact tTransfer_conserved h hc
    | opApprove sp n =>
      simp only [tStep] at h
      unfold tPublicApprove at h
      obtain ⟨e, he, heq⟩ := exceptMap_ok h
      subst heq
      obtain ⟨hs1, hb1⟩ := erc20Approve_ok_elim he
      exact conserved_congr hb1 hs1 hc
    | opTransferFrom f t n =>
      simp only [tStep] at h
      unfold tTransferFrom at h
      dsimp only at h
      split at h
      · exact tTransfer_conserved h hc
      · split at h
        · exact absurd h (by simp)
        · obtain ⟨e1, h1, h⟩ := exceptBind_ok h
          obtain ⟨hs1, hb1⟩ := erc20Approve_ok_elim h1
          exact tTransfer_conserved h (conserved_congr hb1 hs1 hc)

/-- Witness for C6: the freshly constructed token (deployer 1, supply 1000)
satisfies the invariant, and a concrete emergency-drain transfer preserves
it. -/
theorem C6_witness :
    SupplyConserved (okOr cs0 (tConstructor 1 1000 0)).erc ∧
    SupplyConserved c1t.erc :=
  ⟨C6_supply_equals_sum_of_balances.1 1 1000 0 (okOr cs0 (tConstructor 1 1000 0)) rfl,
   C6_supply_equals_sum_of_balances.2 0 csE 2 (.opTransfer 3 10) c1t rfl
     ⟨{1, 2, 3}, fun a ha => by
        simp only [Finset.mem_insert, Finset.mem_singleton, not_or] at ha
        obtain ⟨h1, h2, h3⟩ := ha
        simp [csE, cs0, h1, h2, h3], by decide⟩⟩

/-- C10: `paySecurityPenalty(tokenType)` reverts exactly when the caller's
`failedAttempts < 6`, or `paidPenalties` already holds, or `tokenType` is
outside {0, 1, 2}, or the external penalty-token `transferFrom` fails; a
successful call sets `paidPenalties` and leaves `failedAttempts` alone, so
any immediate second call by the same caller reverts.  (A revert returns
`Except.error`, which carries no state: the caller's `UserSecurity` record
is unchanged by construction of the embedding, as on chain by rollback.) -/
theorem C10_paySecurityPenalty_revert_iff :
    (∀ (s : BState) (sender : Addr) (tokenType : Nat)
      (ext : Addr → Nat → Bool),
      (bPaySecurityPenalty s sender tokenType ext).isOk = false ↔
        ((s.userSecurity sender).failedAttempts < 6 ∨
          (s.userSecurity sender).paidPenalties = true ∨
          3 ≤ tokenType ∨
          ext ((penaltyTokenOf tokenType).getD 0)
            (penaltyChargeOf (s.userSecurity sender).failedAttempts tokenType)
            = false)) ∧
    (∀ (s : BState) (sender : Addr) (tokenType : Nat)
      (ext : Addr → Nat → Bool) (s' : BState),
      bPaySecurityPenalty s sender tokenType ext = .ok s' →
      (s'.userSecurity sender).paidPenalties = true ∧
      (s'.userSecurity sender).failedAttempts
        = (s.userSecurity sender).failedAttempts ∧
      ∀ (tokenType' : Nat) (ext' : Addr → Nat → Bool),
        (bPaySecurityPenalty s' sender tokenType' ext').isOk = false) := by
  constructor
  · intro s sender tokenType ext
    unfold bPaySecurityPenalty
    dsimp only
    split
    · rename_i h1; simp [h1, isOk_error]
    · rename_i h1
      split
      · rename_i h2; simp [h2, isOk_error]
      · rename_i h2
        split
        · rename_i hnone
          have h3 : 3 ≤ tokenType := by
            by_contra hlt
            have hcase : tokenType = 0 ∨ tokenType = 1 ∨ tokenType = 2 := by
              omega
            rcases hcase with hcs | hcs | hcs <;> subst hcs <;>
              simp [penaltyTokenOf] at hnone
          simp [h1, h2, h3, isOk_error]
        · rename_i tok hsome
          have h3 : ¬(3 ≤ tokenType) := by
            intro hge
            unfold penaltyTokenOf at hsome
            rw [if_neg (by omega), if_neg (by omega), if_neg (by omega)]
              at hsome
            cases hsome
          cases h4 : ext tok
              (penaltyChargeOf (s.userSecurity sender).failedAttempts
                tokenType)
          · simp [h4, h1, h2, h3, hsome, isOk_error]
          · simp [h4, h1, h2, h3, hsome, isOk_ok]
  · intro s sender tokenType ext s' h
    unfold bPaySecurityPenalty at h
    dsimp only at h
    split at h
    · exact absurd h (by simp)
    · split at h
      · exact absurd h (by simp)
      · rename_i h1 h2
        split at h
        · exact absurd h (by simp)
        · split at h
          · cases h
            refine ⟨by simp, by simp, ?_⟩
            intro tokenType' ext'
            have hfa : ¬((s.userSecurity sender).failedAttempts < 6) := h1
            simp [bPaySecurityPenalty, hfa, isOk_error]
          · exact absurd h (by simp)

/-- Witness for C10 on `bs0`: an out-of-range token type is rejected, a
successful USDT payment by account 2 marks the penalties paid while
keeping the 7 failed attempts, and the immediate second call reverts. -/
theorem C10_witness :
    (bPaySecurityPenalty bs0 2 5 (fun _ _ => true)).isOk = false ∧
    (c10s.userSecurity 2).paidPenalties = true ∧
    (c10s.userSecurity 2).failedAttempts
      = (bs0.userSecurity 2).failedAttempts ∧
    (bPaySecurityPenalty c10s 2 0 (fun _ _ => true)).isOk = false :=
  ⟨(C10_paySecurityPenalty_revert_iff.1 bs0 2 5 (fun _ _ => true)).mpr
      (Or.inr (Or.inr (Or.inl (by decide)))),
   (C10_paySecurityPenalty_revert_iff.2 bs0 2 0 (fun _ _ => true) c10s rfl).1,
   (C10_paySecurityPenalty_revert_iff.2 bs0 2 0 (fun _ _ => true) c10s
      rfl).2.1,
   (C10_paySecurityPenalty_revert_iff.2 bs0 2 0 (fun _ _ => true) c10s
      rfl).2.2 0 (fun _ _ => true)⟩

theorem xorBlock_length (a b : Block) :
    (xorBlock a b).length = min a.length b.length :=
  List.length_zipWith Nat.xor a b

theorem xorBlock_cancel : ∀ (p iv : Block), p.length ≤ iv.length →
    xorBlock (xorBlock p iv) iv = p := by
  intro p
  induction p with
  | nil => intro iv _; rfl
  | cons a p' ih =>
    intro iv hlen
    cases iv with
    | nil => simp at hlen
    | cons b iv' =>
      show ((a ^^^ b) ^^^ b) :: xorBlock (xorBlock p' iv') iv' = a :: p'
      rw [Nat.xor_assoc, Nat.xor_self, Nat.xor_zero,
        ih iv' (by simpa using hlen)]

theorem cbcDec_cbcEnc (E D : Block → Block)
    (hED : ∀ b, b.length = 16 → D (E b) = b)
    (hElen : ∀ b, b.length = 16 → (E b).length = 16) :
    ∀ (ps : List Block) (iv : Block), iv.length = 16 →
      (∀ p ∈ ps, p.length = 16) →
      cbcDec D iv (cbcEnc E iv ps) = ps := by
  intro ps
  induction ps with
  | nil => intro iv _ _; rfl
  | cons p rest ih =>
    intro iv hiv hps
    have hp : p.length = 16 := hps p (by simp)
    have hx : (xorBlock p iv).length = 16 := by
      rw [xorBlock_length, hp, hiv]
      exact Nat.min_self 16
    show xorBlock (D (E (xorBlock p iv))) iv ::
        cbcDec D (E (xorBlock p iv)) (cbcEnc E (E (xorBlock p iv)) rest)
        = p :: rest
    rw [hED _ hx, xorBlock_cancel p iv (by rw [hp, hiv]),
      ih (E (xorBlock p iv)) (hElen _ hx) (fun q hq => hps q (by simp [hq]))]

theorem chunks16_flatten : ∀ l : Bytes, (chunks16 l).flatten = l := by
  intro l
  induction l using chunks16.induct with
  | case1 => simp [chunks16]
  | case2 =>
    rename_i l h hlt ih
    rw [chunks16, dif_neg h]
    simp [ih]

theorem chunks16_block_len : ∀ l : Bytes, 16 ∣ l.length →
    ∀ b ∈ chunks16 l, b.length = 16 := by
  intro l
  induction l using chunks16.induct with
  | case1 => intro _ b hb; simp [chunks16] at hb
  | case2 =>
    rename_i l h hlt ih
    intro hdvd b hb
    rw [chunks16, dif_neg h] at hb
    have hlp : 0 < l.length := List.length_pos.mpr h
    have h16 : 16 ≤ l.length := by omega
    rcases List.mem_cons.mp hb with hbt | hbr
    · subst hbt
      simp [List.length_take]
      omega
    · exact ih (by simp [List.length_drop]; omega) b hbr

theorem pkcs7pad_length_dvd (m : Bytes) : 16 ∣ (pkcs7pad m).length := by
  unfold pkcs7pad
  dsimp only
  simp only [List.length_append, List.length_replicate]
  omega

theorem pkcs7unpad_append (m : Bytes) (n : Nat) (h1 : 1 ≤ n)
    (h16 : n ≤ 16) : pkcs7unpad (m ++ List.replicate n n) = some m := by
  unfold pkcs7unpad
  obtain ⟨k, hk⟩ : ∃ k, n = k + 1 := ⟨n - 1, by omega⟩
  have hlast : (m ++ List.replicate n n).getLast? = some n := by
    rw [hk, List.replicate_succ', ← List.append_assoc, List.getLast?_concat]
  rw [hlast]
  dsimp only
  have hlen : (m ++ List.replicate n n).length = m.length + n := by simp
  have hml : (m ++ List.replicate n n).length - n = m.length := by
    rw [hlen]; omega
  have h3 : n ≤ (m ++ List.replicate n n).length := by rw [hlen]; omega
  have h4 : (m ++ List.replicate n n).drop
      ((m ++ List.replicate n n).length - n) = List.replicate n n := by
    rw [hml]; exact List.drop_left m (List.replicate n n)
  rw [if_pos ⟨h1, h16, h3, h4⟩, hml, List.take_left]

theorem pkcs7unpad_pad (m : Bytes) : pkcs7unpad (pkcs7pad m) = some m := by
  unfold pkcs7pad
  exact pkcs7unpad_append m (16 - m.length % 16) (by omega) (by omega)

theorem aesCbc_roundtrip (E D : Block → Block)
    (hED : ∀ b, b.length = 16 → D (E b) = b)
    (hElen : ∀ b, b.length = 16 → (E b).length = 16)
    (iv : Block) (hiv : iv.length = 16) (msg : Bytes) :
    aesCbcDecrypt D iv (aesCbcEncrypt E iv msg) = some msg := by
  unfold aesCbcEncrypt aesCbcDecrypt
  rw [cbcDec_cbcEnc E D hED hElen (chunks16 (pkcs7pad msg)) iv hiv
    (chunks16_block_len _ (pkcs7pad_length_dvd msg)),
    chunks16_flatten, pkcs7unpad_pad]

/-- C9: for every wallet list and password, decrypting what the
wallet-generator's `encrypt(data, password)` produced — with the same `iv`
it drew and the same password, through the identical `decrypt` used by the
generator, `distribute-tokens.js` and `random-transactions.js` — returns
the original data.  The external library pieces are parameters: the
AES-256 block cipher keyed by the password (a length-preserving
permutation of 16-byte blocks, inverted by the decipher) and
`JSON.stringify`/`JSON.parse` (parse inverts stringify); the CBC chaining,
PKCS#7 padding and block slicing that `aes-256-cbc` applies are modelled
and proved. -/
theorem C9_encrypt_decrypt_roundtrip :
    ∀ (Key Data : Type) (env : CryptoEnv Key Data), env.Faithful →
      ∀ (data : Data) (password : Key) (iv : Block), iv.length = 16 →
        scriptDecrypt env (scriptEncrypt env data password iv).2
          (scriptEncrypt env data password iv).1 password = some data := by
  intro Key Data env henv data password iv hiv
  obtain ⟨hED, hElen, hparse⟩ := henv
  unfold scriptEncrypt scriptDecrypt
  dsimp only
  rw [aesCbc_roundtrip (env.blockEnc password) (env.blockDec password)
    (hED password) (hElen password) iv hiv]
  simp [hparse]

/-- Witness for C9: the toy faithful environment and a concrete 16-byte IV
round-trip the value 42. -/
theorem C9_witness :
    scriptDecrypt toyEnv (scriptEncrypt toyEnv 42 () iv16).2
      (scriptEncrypt toyEnv 42 () iv16).1 () = some 42 :=
  C9_encrypt_decrypt_roundtrip Unit Nat toyEnv
    ⟨fun _ _ _ => rfl, fun _ _ hb => hb, fun _ => rfl⟩ 42 () iv16 rfl
